import Mathlib

/-!
# std140 client types (`Std140.h`): a layout model

`Std140.h` computes nothing at run time: it declares C++ types whose `sizeof`,
`alignof` and member offsets are meant to reproduce the std140 uniform block
layout.  A C++ type is therefore represented here by what the header and the compiler
ask of it (its size, its alignment under its own name and as a template argument,
which template specialisation it selects, its name, and the empty base classes at its
first byte), and every template of the header becomes a function on such values.

How the declarations are read (x86-64, the Itanium C++ ABI used by GCC and Clang):

* `sizeof`/`alignof` of the OpenGL scalar types are those fixed by the OpenGL
  specification (`GLfloat`, `GLint`, `GLuint`: 4 bytes, `GLdouble`: 8 bytes,
  `GLboolean`: 1 byte), each naturally aligned.
* `ALIGN(x)` on a typedef changes the alignment of the typedef name and leaves the size
  alone.  It holds where the name is written (`alignof(vec4)`, a member `vec3 v;`), and
  it is dropped where the type is a template argument: there `alignof(T)` is the
  alignment of the type the typedef names.
* `ALIGN(x)` on a class definition and `alignas(x)` on a member raise the class
  alignment, and `sizeof` a class is its data size rounded up to its alignment.
* Members of a class are placed in declaration order, each at the first multiple of
  its alignment at or after the end of the previous one.  An empty base class takes no
  storage and sits at byte 0.  Two subobjects of one type never share an address: a
  first member that itself has the class's empty base at its byte 0 is moved up by its
  alignment.
* `Matrix` names `R` and `C` in its base specifier; the header declares neither, so
  what they stand for is a parameter of the model.
-/

namespace std140

/-- Which `ArrayAlignment` specialisation a type selects: one of the five scalar
types the header specialises on, or any class type (the primary template). -/
inductive TypeId where
  | float
  | double
  | boolean
  | int
  | uint
  | classType
deriving DecidableEq, Repr

/-- The name of a type with typedefs resolved: what tells two template specialisations
or two classes apart.  A class of client code is named by its base class and the types
of its members (two classes declared with the same base and the same member types are
not told apart). -/
inductive TypeName where
  | GLfloat
  | GLdouble
  | GLboolean
  | GLint
  | GLuint
  | stdArray (T : TypeName) (N : Nat)
  | Vector (P : TypeName) (SZ : Nat)
  | ArrayAlignedStruct (TYPE : TypeName) (ALIGN : Nat)
  | AlignedPrimitiveType (T : TypeName) (align : Nat)
  | Array (P : TypeName) (SZ : Nat)
  | Matrix (P : TypeName) (COLS ROWS : Nat) (columnMajor : Bool)
  | UBOStruct (T : TypeName)
  | noBase
  | noMembers
  | member (first rest : TypeName)
  | struct (base members : TypeName)
deriving DecidableEq, Repr

/-- A C++ object type as the header and the compiler see it.

* `alignof`: the alignment under the name the type is written with (a typedef's
  `ALIGN` included);
* `templateAlignof`: what `alignof(T)` gives when the type is a template argument
  `T` (a typedef's `ALIGN` dropped);
* `emptyBases`: the specialisations of `UBOStruct` that are empty base classes at
  byte 0 of an object of the type. -/
structure CppType where
  sizeof : Nat
  alignof : Nat
  id : TypeId
  templateAlignof : Nat
  name : TypeName
  emptyBases : List TypeName
deriving DecidableEq, Repr

/-- What C++ guarantees of every complete object type: it occupies at least one byte
and its alignment is a power of two. -/
def CppType.WellFormed (T : CppType) : Prop := 0 < T.sizeof ∧ ∃ k, T.alignof = 2 ^ k

/-- The least multiple of `a` that is at least `x` (the padding step of the C++ class
layout, and the `roundUpToMultiple` of the std140 rules). -/
def roundUpToMultiple (x a : Nat) : Nat := (x + a - 1) / a * a

/-! ## OpenGL scalar types -/

def GLfloat : CppType := ⟨4, 4, .float, 4, .GLfloat, []⟩
def GLdouble : CppType := ⟨8, 8, .double, 8, .GLdouble, []⟩
def GLboolean : CppType := ⟨1, 1, .boolean, 1, .GLboolean, []⟩
def GLint : CppType := ⟨4, 4, .int, 4, .GLint, []⟩
def GLuint : CppType := ⟨4, 4, .uint, 4, .GLuint, []⟩

/-- The macro `ALIGN(x)` applied in a typedef: `typedef ALIGN(x) T name;`. -/
def ALIGN (x : Nat) (T : CppType) : CppType := { T with alignof := x }

/-- The free function template `vectorAlignment<P, SZ>()`. -/
def vectorAlignment (P : CppType) (SZ : Nat) : Nat :=
  match SZ with
  | 2 => P.sizeof * 2
  | 3 => P.sizeof * 4
  | 4 => P.sizeof * 4
  | _ => 0

/-- The static member `VectorAlignment<P, SZ>::vectorAlignment()`. -/
def VectorAlignment.vectorAlignment (P : CppType) (SZ : Nat) : Nat :=
  match SZ with
  | 2 => P.sizeof * 2
  | 3 => P.sizeof * 4
  | 4 => P.sizeof * 4
  | _ => 0

/-- The constant `VectorAlignment<P, SZ>::AlignmentValue`. -/
def VectorAlignment.AlignmentValue (P : CppType) (SZ : Nat) : Nat :=
  VectorAlignment.vectorAlignment P SZ

/-- The class `std::array<T, N>`: `N` consecutive objects of type `T`.  (For `N = 0`
the size is left to the library; the product below is meant for `N ≥ 1`.) -/
def stdArray (T : CppType) (N : Nat) : CppType :=
  ⟨T.sizeof * N, T.templateAlignof, .classType, T.templateAlignof, .stdArray T.name N,
    if N = 0 then [] else T.emptyBases⟩

/-- The class `struct ALIGN(ALIGN) ArrayAlignedStruct : public TYPE`: the base object
at byte 0, no members of its own, alignment raised to `ALIGN`. -/
def ArrayAlignedStruct (TYPE : CppType) (ALIGN : Nat) : CppType :=
  let a := max TYPE.templateAlignof ALIGN
  ⟨roundUpToMultiple TYPE.sizeof a, a, .classType, a,
    .ArrayAlignedStruct TYPE.name ALIGN, TYPE.emptyBases⟩

/-- The class `AlignedPrimitiveType<T, align>`: the single member
`alignas(align) T value`. -/
def AlignedPrimitiveType (T : CppType) (align : Nat) : CppType :=
  let a := max T.templateAlignof align
  ⟨roundUpToMultiple T.sizeof a, a, .classType, a,
    .AlignedPrimitiveType T.name align, T.emptyBases⟩

def float32_t : CppType := ALIGN 4 GLfloat
def double64_t : CppType := ALIGN 8 GLdouble
def bool32_t : CppType := ALIGN 4 GLboolean
def int32_t : CppType := ALIGN 4 GLint
def uint32_t : CppType := ALIGN 4 GLuint

/-- The class `Vector<P, SZ>`, derived from `std::array<P, SZ>` with no members. -/
def Vector (P : CppType) (SZ : Nat) : CppType :=
  { stdArray P SZ with name := .Vector P.name SZ }

def vec2 : CppType := ALIGN (VectorAlignment.AlignmentValue GLfloat 2) (Vector GLfloat 2)
def vec3 : CppType := ALIGN (VectorAlignment.AlignmentValue GLfloat 3) (Vector GLfloat 3)
def vec4 : CppType := ALIGN (VectorAlignment.AlignmentValue GLfloat 4) (Vector GLfloat 4)

def bvec2 : CppType := ALIGN (VectorAlignment.AlignmentValue GLboolean 2) (Vector GLboolean 2)
def bvec3 : CppType := ALIGN (VectorAlignment.AlignmentValue GLfloat 3) (Vector GLboolean 3)
def bvec4 : CppType := ALIGN (VectorAlignment.AlignmentValue GLfloat 4) (Vector GLboolean 4)

def dvec2 : CppType := ALIGN (VectorAlignment.AlignmentValue GLdouble 2) (Vector GLdouble 2)
def dvec3 : CppType := ALIGN (VectorAlignment.AlignmentValue GLdouble 3) (Vector GLdouble 3)
def dvec4 : CppType := ALIGN (VectorAlignment.AlignmentValue GLdouble 4) (Vector GLdouble 4)

def ivec2 : CppType := ALIGN (VectorAlignment.AlignmentValue GLint 2) (Vector GLint 2)
def ivec3 : CppType := ALIGN (VectorAlignment.AlignmentValue GLint 3) (Vector GLint 3)
def ivec4 : CppType := ALIGN (VectorAlignment.AlignmentValue GLint 4) (Vector GLint 4)

def uvec2 : CppType := ALIGN (VectorAlignment.AlignmentValue GLuint 2) (Vector GLuint 2)
def uvec3 : CppType := ALIGN (VectorAlignment.AlignmentValue GLuint 3) (Vector GLuint 3)
def uvec4 : CppType := ALIGN (VectorAlignment.AlignmentValue GLuint 4) (Vector GLuint 4)

/-- The constant `ArrayAlignment<T>::AlignmentValue`: the primary template and its
five explicit specialisations, selected by the type `T` names.  `T` is a template
argument, so `alignof(T)` is its `templateAlignof`; `vec4` and the OpenGL types are
written by name. -/
def ArrayAlignment.AlignmentValue (T : CppType) : Nat :=
  match T.id with
  | .float => max vec4.alignof GLfloat.alignof
  | .double => max vec4.alignof GLdouble.alignof
  | .boolean => max vec4.alignof GLboolean.alignof
  | .int => max vec4.alignof GLint.alignof
  | .uint => max vec4.alignof GLuint.alignof
  | .classType => max vec4.alignof T.templateAlignof

/-- The member typedef `ArrayAlignment<T>::ArrayAlignedType`. -/
def ArrayAlignment.ArrayAlignedType (T : CppType) : CppType :=
  match T.id with
  | .float => AlignedPrimitiveType GLfloat (ArrayAlignment.AlignmentValue T)
  | .double => AlignedPrimitiveType GLdouble (ArrayAlignment.AlignmentValue T)
  | .boolean => AlignedPrimitiveType GLboolean (ArrayAlignment.AlignmentValue T)
  | .int => AlignedPrimitiveType GLint (ArrayAlignment.AlignmentValue T)
  | .uint => AlignedPrimitiveType GLuint (ArrayAlignment.AlignmentValue T)
  | .classType => ArrayAlignedStruct T (ArrayAlignment.AlignmentValue T)

/-- The class `Array<P, SZ>`, derived from
`std::array<typename ArrayAlignment<P>::ArrayAlignedType, SZ>`. -/
def Array (P : CppType) (SZ : Nat) : CppType :=
  { stdArray (ArrayAlignment.ArrayAlignedType P) SZ with name := .Array P.name SZ }

/-- Distance in bytes between consecutive elements of `Array<P, SZ>`: the `sizeof`
the element type of the underlying `std::array`. -/
def Array.stride (P : CppType) : Nat := (ArrayAlignment.ArrayAlignedType P).sizeof

/-- Byte offset of element `i` inside an `Array<P, SZ>`. -/
def Array.elementOffset (P : CppType) (i : Nat) : Nat := i * Array.stride P

/-- What the names `R` and `C` in the base specifier of `Matrix` stand for, as functions
of the template arguments `COLS` and `ROWS`.  The header declares neither name. -/
structure MatrixNames where
  R : Nat → Nat → Nat
  C : Nat → Nat → Nat

/-- The reading `R = ROWS`, `C = COLS`. -/
def MatrixNames.rowsAndCols : MatrixNames := ⟨fun _ ROWS => ROWS, fun COLS _ => COLS⟩

/-- The reading `R = COLS`, `C = ROWS`. -/
def MatrixNames.colsAndRows : MatrixNames := ⟨fun COLS _ => COLS, fun _ ROWS => ROWS⟩

/-- The class `Matrix<P, COLS, ROWS, columnMajor>`, derived from
`Array< Vector<P, columnMajor ? R : C>, columnMajor ? C : R >`. -/
def Matrix (names : MatrixNames) (P : CppType) (COLS ROWS : Nat) (columnMajor : Bool) :
    CppType :=
  { Array (Vector P (if columnMajor then names.R COLS ROWS else names.C COLS ROWS))
      (if columnMajor then names.C COLS ROWS else names.R COLS ROWS) with
    name := .Matrix P.name COLS ROWS columnMajor }

/-- Distance in bytes between consecutive column (or row) vectors of a `Matrix`: the
stride of the `Array` it derives from. -/
def Matrix.stride (names : MatrixNames) (P : CppType) (COLS ROWS : Nat)
    (columnMajor : Bool) : Nat :=
  Array.stride (Vector P (if columnMajor then names.R COLS ROWS else names.C COLS ROWS))

def mat2 (names : MatrixNames) : CppType := Matrix names GLfloat 2 2 true
def mat3 (names : MatrixNames) : CppType := Matrix names GLfloat 3 3 true
def mat4 (names : MatrixNames) : CppType := Matrix names GLfloat 4 4 true
def mat2x3 (names : MatrixNames) : CppType := Matrix names GLfloat 2 3 true
def mat2x4 (names : MatrixNames) : CppType := Matrix names GLfloat 2 4 true
def mat3x2 (names : MatrixNames) : CppType := Matrix names GLfloat 3 2 true
def mat3x4 (names : MatrixNames) : CppType := Matrix names GLfloat 3 4 true
def mat4x2 (names : MatrixNames) : CppType := Matrix names GLfloat 4 2 true
def mat4x3 (names : MatrixNames) : CppType := Matrix names GLfloat 4 3 true

def dmat2 (names : MatrixNames) : CppType := Matrix names GLdouble 2 2 true
def dmat3 (names : MatrixNames) : CppType := Matrix names GLdouble 3 3 true
def dmat4 (names : MatrixNames) : CppType := Matrix names GLdouble 4 4 true
def dmat2x3 (names : MatrixNames) : CppType := Matrix names GLdouble 2 3 true
def dmat2x4 (names : MatrixNames) : CppType := Matrix names GLdouble 2 4 true
def dmat3x2 (names : MatrixNames) : CppType := Matrix names GLdouble 3 2 true
def dmat3x4 (names : MatrixNames) : CppType := Matrix names GLdouble 3 4 true
def dmat4x2 (names : MatrixNames) : CppType := Matrix names GLdouble 4 2 true
def dmat4x3 (names : MatrixNames) : CppType := Matrix names GLdouble 4 3 true

/-- The function template `AlignOrVec4Align<T>()`; `T` is a template argument. -/
def AlignOrVec4Align (T : CppType) : Nat :=
  if T.templateAlignof > vec4.alignof then T.templateAlignof else vec4.alignof

/-- The empty class `struct ALIGN(AlignOrVec4Align<T>()) UBOStruct {}`. -/
def UBOStruct (T : CppType) : CppType :=
  ⟨AlignOrVec4Align T, AlignOrVec4Align T, .classType, AlignOrVec4Align T,
    .UBOStruct T.name, [.UBOStruct T.name]⟩

/-! ## Classes declared by client code

`struct S : public UBOStruct<T> { F1 f1; ...; Fn fn; };` -/

/-- Offsets of the members `fields`, placed in declaration order from `cursor`. -/
def placeFields (cursor : Nat) : List CppType → List Nat
  | [] => []
  | f :: fs =>
    let off := roundUpToMultiple cursor f.alignof
    off :: placeFields (off + f.sizeof) fs

/-- End of the last member placed (the data size of the class). -/
def rawExtent (cursor : Nat) : List CppType → Nat
  | [] => cursor
  | f :: fs => rawExtent (roundUpToMultiple cursor f.alignof + f.sizeof) fs

/-- Alignment of a class whose bases and attributes ask for `baseAlign` and whose
members are `fields`. -/
def classAlign (baseAlign : Nat) : List CppType → Nat
  | [] => baseAlign
  | f :: fs => classAlign (max baseAlign f.alignof) fs

/-- The member types of a class, as part of its name. -/
def memberNames : List CppType → TypeName
  | [] => .noMembers
  | f :: fs => .member f.name (memberNames fs)

/-- Where placement of the members starts in a class with the empty base `base`: at
byte 0, unless the first member has the same empty base at its own byte 0; then the
member cannot go to byte 0 and the next candidate is its alignment. -/
def firstMemberOffset (base : TypeName) : List CppType → Nat
  | [] => 0
  | f :: _ => if base ∈ f.emptyBases then f.alignof else 0

/-- The empty bases at byte 0 of a class with the empty base `base`: the base, and
those of the first member when it is at byte 0. -/
def basesAtZero (base : TypeName) : List CppType → List TypeName
  | [] => [base]
  | f :: _ => if base ∈ f.emptyBases then [base] else base :: f.emptyBases

/-- The empty bases at byte 0 of a class without base class: those of its first
member. -/
def firstMemberBases : List CppType → List TypeName
  | [] => []
  | f :: _ => f.emptyBases

/-- A class with the given members, placed from byte `start`, whose (empty) bases and
attributes ask for alignment `baseAlign`; a class object occupies at least one byte. -/
def classLayout (baseAlign start : Nat) (name : TypeName) (bases : List TypeName)
    (fields : List CppType) : CppType :=
  let a := classAlign baseAlign fields
  ⟨roundUpToMultiple (max 1 (rawExtent start fields)) a, a, .classType, a, name, bases⟩

/-- Member offsets of a class without base class, `struct S { ... };`: members start at
byte 0. -/
def memberOffsets (fields : List CppType) : List Nat := placeFields 0 fields

/-- A client struct without base class: `struct S { ... };`. -/
def plainStruct (fields : List CppType) : CppType :=
  classLayout 1 0 (.struct .noBase (memberNames fields)) (firstMemberBases fields) fields

/-- Member offsets of a client struct `struct S : public UBOStruct<T> { ... };`. -/
def UBOStruct.memberOffsets (T : CppType) (fields : List CppType) : List Nat :=
  placeFields (firstMemberOffset (.UBOStruct T.name) fields) fields

/-- A client struct `struct S : public UBOStruct<T> { ... };`. -/
def UBOStruct.derived (T : CppType) (fields : List CppType) : CppType :=
  classLayout (UBOStruct T).alignof (firstMemberOffset (.UBOStruct T.name) fields)
    (.struct (.UBOStruct T.name) (memberNames fields))
    (basesAtZero (.UBOStruct T.name) fields) fields

/-! ## The std140 reference rules

The layout rules as the specification words them (Primitive Catalog, Vector Rule,
Matrix Rule, Array Rule, Struct Rule, Offset Assignor), kept apart from the client
types above so that the two can be compared. -/

namespace Reference

inductive PrimitiveType where
  | bool32
  | int32
  | uint32
  | float32
  | float64
deriving DecidableEq, Repr

inductive MajorOrder where
  | columnMajor
  | rowMajor
deriving DecidableEq, Repr

/-- A shape: the description of a block's or struct's field composition. -/
inductive FieldKind where
  | Scalar (p : PrimitiveType)
  | Vector (p : PrimitiveType) (length : Nat)
  | Matrix (p : PrimitiveType) (columns rows : Nat) (majorOrder : MajorOrder)
  | Array (element : FieldKind) (count : Nat)
  | Struct (orderedFields : List (String × FieldKind))

structure LayoutInfo where
  alignment : Nat
  size : Nat
deriving DecidableEq, Repr

/-- The offsets of a struct's fields, by name, with the struct's own layout. -/
structure OffsetTable where
  offsets : List (String × Nat)
  layout : LayoutInfo
deriving DecidableEq, Repr

inductive LayoutError where
  | InvalidShape
deriving DecidableEq, Repr

/-- Primitive Catalog: 4 bytes for the 32-bit kinds, 8 for float64. -/
def PrimitiveType.size : PrimitiveType → Nat
  | .bool32 => 4
  | .int32 => 4
  | .uint32 => 4
  | .float32 => 4
  | .float64 => 8

/-- Primitive Catalog: every primitive is aligned to its size. -/
def PrimitiveType.alignment (p : PrimitiveType) : Nat := p.size

/-- The 16-byte alignment floor of arrays and structs. -/
def vec4Align : Nat := 16

/-- Vector Rule. -/
def vectorRule (p : PrimitiveType) (n : Nat) : Except LayoutError LayoutInfo :=
  if n = 2 ∨ n = 3 ∨ n = 4 then
    .ok ⟨if n = 2 then 2 * p.size else 4 * p.size, n * p.size⟩
  else .error .InvalidShape

/-- Array Rule: the alignment of the collection. -/
def collectionAlign (element : LayoutInfo) : Nat :=
  roundUpToMultiple (max element.alignment vec4Align) vec4Align

/-- Array Rule: the slot every element occupies. -/
def elementStride (element : LayoutInfo) : Nat :=
  roundUpToMultiple element.size (collectionAlign element)

/-- Array Rule. -/
def arrayRule (element : LayoutInfo) (n : Nat) : Except LayoutError LayoutInfo :=
  if n = 0 then .error .InvalidShape
  else .ok ⟨collectionAlign element, elementStride element * n⟩

/-- Matrix Rule: the Array Rule applied to `Array(Vector(p, innerLen), outerCount)`. -/
def matrixRule (p : PrimitiveType) (columns rows : Nat) (order : MajorOrder) :
    Except LayoutError LayoutInfo :=
  match order with
  | .columnMajor => do
    let v ← vectorRule p rows
    arrayRule v columns
  | .rowMajor => do
    let v ← vectorRule p columns
    arrayRule v rows

/-- Offset Assignor: the offsets of the fields placed from `cursor`, in order. -/
def assignOffsets (cursor : Nat) : List LayoutInfo → List Nat
  | [] => []
  | f :: fs =>
    let off := roundUpToMultiple cursor f.alignment
    off :: assignOffsets (off + f.size) fs

/-- Offset Assignor: the final cursor, the raw extent of the fields. -/
def finalCursor (cursor : Nat) : List LayoutInfo → Nat
  | [] => cursor
  | f :: fs => finalCursor (roundUpToMultiple cursor f.alignment + f.size) fs

/-- Struct Rule: alignment and size from the layouts of the fields. -/
def structRule (fields : List LayoutInfo) : LayoutInfo :=
  let a := max vec4Align ((fields.map LayoutInfo.alignment).foldr max 0)
  ⟨a, roundUpToMultiple (finalCursor 0 fields) a⟩

mutual
/-- The interface `layoutOf`: the layout of a shape, or `InvalidShape`. -/
def layoutOf : FieldKind → Except LayoutError LayoutInfo
  | .Scalar p => .ok ⟨p.alignment, p.size⟩
  | .Vector p n => vectorRule p n
  | .Matrix p c r o => matrixRule p c r o
  | .Array e n => do
    let l ← layoutOf e
    arrayRule l n
  | .Struct fs => do
    let ls ← layoutsOf fs
    if (fs.map Prod.fst).Nodup then .ok (structRule ls) else .error .InvalidShape
/-- The layouts of the fields of a struct, in declaration order. -/
def layoutsOf : List (String × FieldKind) → Except LayoutError (List LayoutInfo)
  | [] => .ok []
  | (_, k) :: rest => do
    let l ← layoutOf k
    let ls ← layoutsOf rest
    .ok (l :: ls)
end

/-- The interface `offsetsOf`: the offset table of a struct shape. -/
def offsetsOf : FieldKind → Except LayoutError OffsetTable
  | .Struct fs => do
    let ls ← layoutsOf fs
    if (fs.map Prod.fst).Nodup then
      .ok ⟨(fs.map Prod.fst).zip (assignOffsets 0 ls), structRule ls⟩
    else .error .InvalidShape
  | _ => .error .InvalidShape

end Reference

/-! ## The client type of a shape -/

open Reference in
/-- The OpenGL scalar type behind a primitive kind. -/
def glType : PrimitiveType → CppType
  | .bool32 => GLboolean
  | .int32 => GLint
  | .uint32 => GLuint
  | .float32 => GLfloat
  | .float64 => GLdouble

open Reference in
/-- The scalar typedef the header declares for a primitive kind. -/
def scalarTypedef : PrimitiveType → CppType
  | .bool32 => bool32_t
  | .int32 => int32_t
  | .uint32 => uint32_t
  | .float32 => float32_t
  | .float64 => double64_t

open Reference in
/-- The vector typedef the header declares for a primitive kind and a length, if any. -/
def vectorTypedef : PrimitiveType → Nat → Option CppType
  | .float32, 2 => some vec2
  | .float32, 3 => some vec3
  | .float32, 4 => some vec4
  | .bool32, 2 => some bvec2
  | .bool32, 3 => some bvec3
  | .bool32, 4 => some bvec4
  | .float64, 2 => some dvec2
  | .float64, 3 => some dvec3
  | .float64, 4 => some dvec4
  | .int32, 2 => some ivec2
  | .int32, 3 => some ivec3
  | .int32, 4 => some ivec4
  | .uint32, 2 => some uvec2
  | .uint32, 3 => some uvec3
  | .uint32, 4 => some uvec4
  | _, _ => none

open Reference in
mutual
/-- The client type that declares a shape: the scalar and vector typedefs, `Matrix`,
`Array`, and a struct derived from `UBOStruct<>` with the fields in order. -/
def clientType (names : MatrixNames) : FieldKind → Option CppType
  | .Scalar p => some (scalarTypedef p)
  | .Vector p n => vectorTypedef p n
  | .Matrix p c r o => some (Matrix names (glType p) c r (o == .columnMajor))
  | .Array e n => do
    let t ← clientType names e
    some (Array t n)
  | .Struct fs => do
    let ts ← clientTypes names fs
    some (UBOStruct.derived vec4 ts)
/-- The client types of the fields of a struct, in declaration order. -/
def clientTypes (names : MatrixNames) : List (String × FieldKind) → Option (List CppType)
  | [] => some []
  | (_, k) :: rest => do
    let t ← clientType names k
    let ts ← clientTypes names rest
    some (t :: ts)
end

open Reference in
/-- The member offsets, by name, of the client struct that declares a struct shape. -/
def clientOffsets (names : MatrixNames) : FieldKind → Option (List (String × Nat))
  | .Struct fs => do
    let ts ← clientTypes names fs
    some ((fs.map Prod.fst).zip (UBOStruct.memberOffsets vec4 ts))
  | _ => none

/-! ## The structs of the unit test (`test/main.cpp`) -/

/-- Members of `struct TestStruct : public std140::UBOStruct<>`: `float32_t a, b, c;`. -/
def TestStruct.fields : List CppType := [float32_t, float32_t, float32_t]

def TestStruct : CppType := UBOStruct.derived vec4 TestStruct.fields

/-- Members of `struct TestStruct2 : public std140::UBOStruct<>`:
`float32_t a; vec2 b;`. -/
def TestStruct2.fields : List CppType := [float32_t, vec2]

def TestStruct2 : CppType := UBOStruct.derived vec4 TestStruct2.fields

/-- Members of `struct TestStruct4 : public std140::UBOStruct<>`:
`vec3 a; vec3 b; Array<vec3, 2> c; Array<vec3, 4> d; float32_t w;`. -/
def TestStruct4.fields : List CppType := [vec3, vec3, Array vec3 2, Array vec3 4, float32_t]

def TestStruct4 : CppType := UBOStruct.derived vec4 TestStruct4.fields

/-- Members of `struct TestStruct6 : public std140::UBOStruct<>`:
`Array<float32_t, 5> a; float testInstances6_b;`. -/
def TestStruct6.fields : List CppType := [Array float32_t 5, GLfloat]

def TestStruct6 : CppType := UBOStruct.derived vec4 TestStruct6.fields

/-- Members of `struct TestMatrixStruct : public std140::UBOStruct<>`:
`mat3 a; float32_t b; mat3x2 c; mat2x3 d; float32_t e;`. -/
def TestMatrixStruct.fields (names : MatrixNames) : List CppType :=
  [mat3 names, float32_t, mat3x2 names, mat2x3 names, float32_t]

def TestMatrixStruct (names : MatrixNames) : CppType :=
  UBOStruct.derived vec4 (TestMatrixStruct.fields names)

/-- Members of `struct TestStruct3 : public std140::UBOStruct<>`: `float32_t a, b;`. -/
def TestStruct3.fields : List CppType := [float32_t, float32_t]

def TestStruct3 : CppType := UBOStruct.derived vec4 TestStruct3.fields

/-- Members of the local `struct TestStruct3B` (no base class):
`TestStruct3 a; TestStruct3 b; float c;`. -/
def TestStruct3B.fields : List CppType := [TestStruct3, TestStruct3, GLfloat]

def TestStruct3B : CppType := plainStruct TestStruct3B.fields

/-- Members of `struct TestStruct5 : public std140::UBOStruct<>`:
`vec3 a; vec3 b; Array<vec3, 2> c; Array<vec3, 3> d; vec3 e; float32_t w;`. -/
def TestStruct5.fields : List CppType :=
  [vec3, vec3, Array vec3 2, Array vec3 3, vec3, float32_t]

def TestStruct5 : CppType := UBOStruct.derived vec4 TestStruct5.fields

/-- Members of `struct InstanceMaterial : public std140::UBOStruct<>`:
`vec3 surfaceColor; float32_t roughness; vec3 emissive; float32_t metallic;`. -/
def InstanceMaterial.fields : List CppType := [vec3, float32_t, vec3, float32_t]

def InstanceMaterial : CppType := UBOStruct.derived vec4 InstanceMaterial.fields

/-- Members of `struct PointLight : public std140::UBOStruct<>`:
`vec3 location; vec3 color;`. -/
def PointLight.fields : List CppType := [vec3, vec3]

def PointLight : CppType := UBOStruct.derived vec4 PointLight.fields

/-- Members of `struct DirectionalLight : public std140::UBOStruct<>`:
`vec3 direction; vec3 color;`. -/
def DirectionalLight.fields : List CppType := [vec3, vec3]

def DirectionalLight : CppType := UBOStruct.derived vec4 DirectionalLight.fields

def MAX_DIRECTIONAL_LIGHTS : Nat := 25

def MAX_POINT_LIGHTS : Nat := 25

def MAX_SPHERES : Nat := 5

/-- Members of `struct DirectionalLightUBO` (no base class):
`int32_t nDirectionalLights; Array<DirectionalLight, MAX_DIRECTIONAL_LIGHTS>
directionalLights;`. -/
def DirectionalLightUBO.fields : List CppType :=
  [int32_t, Array DirectionalLight MAX_DIRECTIONAL_LIGHTS]

/-- Members of `struct PointLightUBO` (no base class):
`int32_t nPointLights; Array<PointLight, MAX_POINT_LIGHTS> pointLights;`. -/
def PointLightUBO.fields : List CppType := [int32_t, Array PointLight MAX_POINT_LIGHTS]

/-- Members of `struct SphereUBO` (no base class):
`Array<InstanceMaterial, MAX_SPHERES> instances;`. -/
def SphereUBO.fields : List CppType := [Array InstanceMaterial MAX_SPHERES]

/-- Members of `struct TestDoubleStruct : public std140::UBOStruct<std140::dvec4>`:
`dvec4 a; vec3 b;`. -/
def TestDoubleStruct.fields : List CppType := [dvec4, vec3]

def TestDoubleStruct : CppType := UBOStruct.derived dvec4 TestDoubleStruct.fields

/-- Members of `struct TestDoubleStruct2 : public std140::UBOStruct<std140::dvec4>`:
`vec2 a; dvec3 b;`. -/
def TestDoubleStruct2.fields : List CppType := [vec2, dvec3]

def TestDoubleStruct2 : CppType := UBOStruct.derived dvec4 TestDoubleStruct2.fields

/-! ## Rounding up to a multiple -/

theorem roundUpToMultiple_dvd (x a : Nat) : a ∣ roundUpToMultiple x a :=
  Dvd.intro_left _ rfl

theorem le_roundUpToMultiple (x a : Nat) (ha : 0 < a) : x ≤ roundUpToMultiple x a := by
  unfold roundUpToMultiple
  have h1 := Nat.div_add_mod (x + a - 1) a
  have h2 := Nat.mod_lt (x + a - 1) ha
  have h3 : a * ((x + a - 1) / a) = (x + a - 1) / a * a := Nat.mul_comm _ _
  omega

theorem roundUpToMultiple_lt (x a : Nat) (ha : 0 < a) : roundUpToMultiple x a < x + a := by
  unfold roundUpToMultiple
  have h1 := Nat.div_add_mod (x + a - 1) a
  have h3 : a * ((x + a - 1) / a) = (x + a - 1) / a * a := Nat.mul_comm _ _
  omega

theorem roundUpToMultiple_le_of_dvd (x a m : Nat) (ha : 0 < a) (hd : a ∣ m) (hx : x ≤ m) :
    roundUpToMultiple x a ≤ m := by
  obtain ⟨c, rfl⟩ := hd
  unfold roundUpToMultiple
  have hq : (x + a - 1) / a ≤ c := by
    rw [Nat.div_le_iff_le_mul_add_pred ha]
    omega
  calc (x + a - 1) / a * a ≤ c * a := Nat.mul_le_mul_right a hq
    _ = a * c := Nat.mul_comm c a

theorem roundUpToMultiple_eq_self (x a : Nat) (ha : 0 < a) (hd : a ∣ x) :
    roundUpToMultiple x a = x :=
  Nat.le_antisymm (roundUpToMultiple_le_of_dvd x a x ha hd (Nat.le_refl x))
    (le_roundUpToMultiple x a ha)

/-! ## Class layout -/

theorem base_le_classAlign (b : Nat) (fs : List CppType) : b ≤ classAlign b fs := by
  induction fs generalizing b with
  | nil => exact Nat.le_refl b
  | cons f fs ih => exact Nat.le_trans (Nat.le_max_left b f.alignof) (ih _)

theorem classAlign_eq_max (b : Nat) (fs : List CppType) :
    classAlign b fs = max b ((fs.map CppType.alignof).foldr max 0) := by
  induction fs generalizing b with
  | nil => simp [classAlign]
  | cons f fs ih => simp [classAlign, ih, Nat.max_assoc]

theorem placeFields_length (c : Nat) (fs : List CppType) :
    (placeFields c fs).length = fs.length := by
  induction fs generalizing c with
  | nil => rfl
  | cons f fs ih => simp [placeFields, ih]

theorem placeFields_aligned (c : Nat) (fs : List CppType) :
    ∀ p ∈ (placeFields c fs).zip fs, p.2.alignof ∣ p.1 := by
  induction fs generalizing c with
  | nil => intro p hp; simp [placeFields] at hp
  | cons f fs ih =>
    intro p hp
    simp only [placeFields, List.zip_cons_cons, List.mem_cons] at hp
    rcases hp with rfl | hp
    · exact roundUpToMultiple_dvd c f.alignof
    · exact ih _ p hp

theorem le_rawExtent (c : Nat) (fs : List CppType) (h : ∀ f ∈ fs, 0 < f.alignof) :
    c ≤ rawExtent c fs := by
  induction fs generalizing c with
  | nil => exact Nat.le_refl c
  | cons f fs ih =>
    have hf : 0 < f.alignof := h f (List.mem_cons_self f fs)
    have h1 := le_roundUpToMultiple c f.alignof hf
    have h2 := ih (roundUpToMultiple c f.alignof + f.sizeof)
      (fun g hg => h g (List.mem_cons_of_mem f hg))
    simp only [rawExtent]
    omega

theorem field_end_le_rawExtent (c : Nat) (fs : List CppType) (h : ∀ f ∈ fs, 0 < f.alignof) :
    ∀ p ∈ (placeFields c fs).zip fs, p.1 + p.2.sizeof ≤ rawExtent c fs := by
  induction fs generalizing c with
  | nil => intro p hp; simp [placeFields] at hp
  | cons f fs ih =>
    have hrest : ∀ g ∈ fs, 0 < g.alignof := fun g hg => h g (List.mem_cons_of_mem f hg)
    intro p hp
    simp only [placeFields, List.zip_cons_cons, List.mem_cons] at hp
    rcases hp with rfl | hp
    · exact le_rawExtent _ fs hrest
    · exact ih _ hrest p hp

theorem placeFields_concat (c : Nat) (fs : List CppType) (f : CppType) :
    placeFields c (fs ++ [f]) =
      placeFields c fs ++ [roundUpToMultiple (rawExtent c fs) f.alignof] := by
  induction fs generalizing c with
  | nil => rfl
  | cons g fs ih => simp [placeFields, rawExtent, ih]

theorem rawExtent_concat (c : Nat) (fs : List CppType) (f : CppType) :
    rawExtent c (fs ++ [f]) = roundUpToMultiple (rawExtent c fs) f.alignof + f.sizeof := by
  induction fs generalizing c with
  | nil => rfl
  | cons g fs ih => simp [rawExtent, ih]

theorem vec4_alignof : vec4.alignof = 16 := rfl

theorem sixteen_le_AlignOrVec4Align (T : CppType) : 16 ≤ AlignOrVec4Align T := by
  unfold AlignOrVec4Align
  rw [vec4_alignof]
  split <;> omega

theorem pow_two_max_sixteen (a : Nat) (h : ∃ k, a = 2 ^ k) : 16 ∣ max a 16 := by
  obtain ⟨k, rfl⟩ := h
  rcases Nat.lt_or_ge k 4 with hk | hk
  · have : 2 ^ k ≤ 16 := by
      have := Nat.pow_le_pow_right (by decide : 0 < 2) (Nat.le_of_lt hk)
      simpa using this
    rw [Nat.max_eq_right this]
  · have hd : 16 ∣ 2 ^ k := by
      have := Nat.pow_dvd_pow 2 hk
      simpa using this
    have : 16 ≤ 2 ^ k := Nat.le_of_dvd (Nat.two_pow_pos k) hd
    rw [Nat.max_eq_left this]
    exact hd

/-! ## Arrays -/

theorem Array_alignof_eq (T : CppType) (n : Nat) :
    (Array T n).alignof = 16 ∨
      (T.id = TypeId.classType ∧ (Array T n).alignof = max T.templateAlignof 16) := by
  cases hid : T.id
  case classType =>
    right
    refine ⟨rfl, ?_⟩
    simp only [Array, stdArray, ArrayAlignment.ArrayAlignedType,
      ArrayAlignment.AlignmentValue, hid, ArrayAlignedStruct, vec4_alignof]
    omega
  all_goals
    left
    simp only [Array, stdArray, ArrayAlignment.ArrayAlignedType,
      ArrayAlignment.AlignmentValue, hid]
    rfl

theorem Array_templateAlignof (T : CppType) (n : Nat) :
    (Array T n).templateAlignof = (Array T n).alignof := rfl

theorem Array_stride_eq (T : CppType) :
    Array.stride T = 16 ∨
      (T.id = TypeId.classType ∧
        Array.stride T = roundUpToMultiple T.sizeof (max T.templateAlignof 16)) := by
  cases hid : T.id
  case classType =>
    right
    refine ⟨rfl, ?_⟩
    simp only [Array.stride, ArrayAlignment.ArrayAlignedType,
      ArrayAlignment.AlignmentValue, hid, ArrayAlignedStruct, vec4_alignof]
    have e : max T.templateAlignof (max 16 T.templateAlignof) = max T.templateAlignof 16 := by
      omega
    rw [e]
  all_goals
    left
    simp only [Array.stride, ArrayAlignment.ArrayAlignedType,
      ArrayAlignment.AlignmentValue, hid]
    rfl

/-! ## The claims -/

/-- C2: `Array<dvec3, n>` and `Array<dvec4, n>` have alignment 16, where the element's
alignment `a` is 32 and `max a 16` is 32: inside `ArrayAlignment<T>` the element is a
template argument and `alignof(T)` is 8.  After a `float32_t` an `Array<dvec3, 2>` sits
at byte 16, where the Array Rule puts it at 32.  For every class type the array
alignment is `max t 16` and the element stride the element size rounded up to it, `t`
the alignment the element has as a template argument; the size is `stride * n` and
every element has a full stride inside the array. -/
theorem C2_Array_of_dvec_alignment :
    (∀ n, (Array dvec3 n).alignof = 16 ∧ (Array dvec4 n).alignof = 16) ∧
    (dvec3.alignof = 32 ∧ dvec4.alignof = 32 ∧ max dvec3.alignof 16 = 32) ∧
    (dvec3.templateAlignof = 8 ∧ dvec4.templateAlignof = 8) ∧
    memberOffsets [float32_t, Array dvec3 2] = [0, 16] ∧
    UBOStruct.memberOffsets vec4 [float32_t, Array dvec3 2] = [0, 16] ∧
    Reference.arrayRule ⟨32, 24⟩ 2 = .ok ⟨32, 64⟩ ∧
    Reference.assignOffsets 0 [⟨4, 4⟩, ⟨32, 64⟩] = [0, 32] ∧
    (∀ (T : CppType) (n : Nat), T.id = TypeId.classType →
      (Array T n).alignof = max T.templateAlignof 16 ∧
      Array.stride T = roundUpToMultiple T.sizeof (max T.templateAlignof 16) ∧
      (Array T n).sizeof = Array.stride T * n ∧
      (∀ i, i < n → Array.elementOffset T i + Array.stride T ≤ (Array T n).sizeof)) := by
  refine ⟨fun n => ⟨rfl, rfl⟩, ⟨rfl, rfl, rfl⟩, ⟨rfl, rfl⟩, rfl, rfl, rfl, rfl, ?_⟩
  intro T n hT
  have hal : (Array T n).alignof = max T.templateAlignof 16 := by
    simp only [Array, stdArray, ArrayAlignment.ArrayAlignedType,
      ArrayAlignment.AlignmentValue, hT, ArrayAlignedStruct, vec4_alignof]
    omega
  have hst : Array.stride T = roundUpToMultiple T.sizeof (max T.templateAlignof 16) := by
    have e : max T.templateAlignof (max 16 T.templateAlignof) = max T.templateAlignof 16 := by
      omega
    simp only [Array.stride, ArrayAlignment.ArrayAlignedType,
      ArrayAlignment.AlignmentValue, hT, ArrayAlignedStruct, vec4_alignof, e]
  have hsz : (Array T n).sizeof = Array.stride T * n := rfl
  refine ⟨hal, hst, hsz, ?_⟩
  intro i hi
  have hstep : Array.elementOffset T i + Array.stride T = (i + 1) * Array.stride T := by
    unfold Array.elementOffset
    rw [Nat.add_mul, Nat.one_mul]
  rw [hsz, hstep]
  calc (i + 1) * Array.stride T ≤ n * Array.stride T := Nat.mul_le_mul_right _ hi
    _ = Array.stride T * n := Nat.mul_comm _ _

/-- C3: for a component type `P` of size `s`, both `vectorAlignment<P, n>()` and
`VectorAlignment<P, n>::AlignmentValue` are `2 * s` for `n = 2` and `4 * s` for `n = 3`
and `n = 4`. -/
theorem C3_vectorAlignment (P : CppType) :
    (vectorAlignment P 2 = 2 * P.sizeof ∧ vectorAlignment P 3 = 4 * P.sizeof ∧
      vectorAlignment P 4 = 4 * P.sizeof) ∧
    (VectorAlignment.AlignmentValue P 2 = 2 * P.sizeof ∧
      VectorAlignment.AlignmentValue P 3 = 4 * P.sizeof ∧
      VectorAlignment.AlignmentValue P 4 = 4 * P.sizeof) := by
  simp [vectorAlignment, VectorAlignment.AlignmentValue, VectorAlignment.vectorAlignment,
    Nat.mul_comm]

/-- C4: `Vector<P, n>` has size `n * sizeof(P)`, and an `ALIGN` typedef of it keeps that
size whatever the alignment; `vec3` has size 12 and alignment 16. -/
theorem C4_Vector_size (P : CppType) (n : Nat) :
    (Vector P n).sizeof = n * P.sizeof ∧
    (∀ a, (ALIGN a (Vector P n)).sizeof = n * P.sizeof) ∧
    vec3.sizeof = 12 ∧ vec3.alignof = 16 := by
  refine ⟨?_, ?_, rfl, rfl⟩
  · simp [Vector, stdArray, Nat.mul_comm]
  · intro a
    simp [ALIGN, Vector, stdArray, Nat.mul_comm]

/-- C5: a struct derived from `UBOStruct<>` has alignment `max 16 m`, where `m` is the
greatest alignment among its fields; so it is at least 16, at least the alignment of each
field, and is either 16 or the alignment of one of the fields. -/
theorem C5_struct_alignment (fields : List CppType) :
    (UBOStruct.derived vec4 fields).alignof =
      max 16 ((fields.map CppType.alignof).foldr max 0) ∧
    16 ≤ (UBOStruct.derived vec4 fields).alignof := by
  have h : (UBOStruct.derived vec4 fields).alignof =
      max 16 ((fields.map CppType.alignof).foldr max 0) := by
    simp only [UBOStruct.derived, classLayout, classAlign_eq_max]
    rfl
  exact ⟨h, by rw [h]; exact Nat.le_max_left _ _⟩

theorem class_size_of_fields (c a : Nat) (fields : List CppType) (hne : fields ≠ [])
    (hwf : ∀ f ∈ fields, f.WellFormed) (ha : 0 < a) :
    (∃ o f, (placeFields c fields).getLast? = some o ∧ fields.getLast? = some f ∧
      roundUpToMultiple (max 1 (rawExtent c fields)) a = roundUpToMultiple (o + f.sizeof) a) ∧
    a ∣ roundUpToMultiple (max 1 (rawExtent c fields)) a ∧
    (∀ p ∈ (placeFields c fields).zip fields,
      p.1 + p.2.sizeof ≤ roundUpToMultiple (max 1 (rawExtent c fields)) a) ∧
    (∀ m, a ∣ m → (∀ p ∈ (placeFields c fields).zip fields, p.1 + p.2.sizeof ≤ m) →
      roundUpToMultiple (max 1 (rawExtent c fields)) a ≤ m) := by
  have hpos : ∀ f ∈ fields, 0 < f.alignof := by
    intro f hf
    obtain ⟨_, k, hk⟩ := hwf f hf
    rw [hk]
    exact Nat.two_pow_pos k
  rcases List.eq_nil_or_concat fields with h | ⟨init, f, h⟩
  · exact absurd h hne
  · rw [List.concat_eq_append] at h
    have hf : 0 < f.sizeof := (hwf f (by rw [h]; simp)).1
    have hext : rawExtent c fields =
        roundUpToMultiple (rawExtent c init) f.alignof + f.sizeof := by
      rw [h]; exact rawExtent_concat c init f
    have hoff : (placeFields c fields).getLast? =
        some (roundUpToMultiple (rawExtent c init) f.alignof) := by
      rw [h]; simp [placeFields_concat]
    have hlast : fields.getLast? = some f := by
      rw [h]; simp
    have hmax : max 1 (rawExtent c fields) = rawExtent c fields := by omega
    have hcover := field_end_le_rawExtent c fields hpos
    have hlastmem : (roundUpToMultiple (rawExtent c init) f.alignof, f) ∈
        (placeFields c fields).zip fields := by
      rw [h]; simp [placeFields_concat, List.zip_append, placeFields_length]
    rw [hmax]
    refine ⟨⟨_, f, hoff, hlast, ?_⟩, roundUpToMultiple_dvd _ _, ?_, ?_⟩
    · rw [hext]
    · intro p hp
      exact Nat.le_trans (hcover p hp) (le_roundUpToMultiple _ _ ha)
    · intro m hm hall
      refine roundUpToMultiple_le_of_dvd _ _ m ha hm ?_
      rw [hext]
      exact hall _ hlastmem

theorem derived_alignof_ge (T : CppType) (fields : List CppType) :
    16 ≤ (UBOStruct.derived T fields).alignof :=
  Nat.le_trans (sixteen_le_AlignOrVec4Align T) (base_le_classAlign _ fields)

theorem derived_alignof_dvd_sizeof (T : CppType) (fields : List CppType) :
    (UBOStruct.derived T fields).alignof ∣ (UBOStruct.derived T fields).sizeof :=
  roundUpToMultiple_dvd _ _

/-- C6: for a struct derived from `UBOStruct<T>` with at least one field, all fields
well-formed, the size is the end of the last field rounded up to the struct's alignment;
it is a multiple of the alignment, it covers every field, and no smaller multiple of the
alignment does. -/
theorem C6_struct_size (T : CppType) (fields : List CppType) (hne : fields ≠ [])
    (hwf : ∀ f ∈ fields, f.WellFormed) :
    (∃ o f, (UBOStruct.memberOffsets T fields).getLast? = some o ∧
      fields.getLast? = some f ∧
      (UBOStruct.derived T fields).sizeof =
        roundUpToMultiple (o + f.sizeof) (UBOStruct.derived T fields).alignof) ∧
    (UBOStruct.derived T fields).alignof ∣ (UBOStruct.derived T fields).sizeof ∧
    (∀ p ∈ (UBOStruct.memberOffsets T fields).zip fields,
      p.1 + p.2.sizeof ≤ (UBOStruct.derived T fields).sizeof) ∧
    (∀ m, (UBOStruct.derived T fields).alignof ∣ m →
      (∀ p ∈ (UBOStruct.memberOffsets T fields).zip fields, p.1 + p.2.sizeof ≤ m) →
      (UBOStruct.derived T fields).sizeof ≤ m) :=
  class_size_of_fields (firstMemberOffset (.UBOStruct T.name) fields)
    (UBOStruct.derived T fields).alignof fields hne hwf
    (Nat.lt_of_lt_of_le (by decide : 0 < 16) (derived_alignof_ge T fields))

/-- Witness for C6 at the struct with fields `float32_t a; vec2 b;`. -/
theorem C6_struct_size_witness :
    [float32_t, vec2] ≠ [] ∧ (∀ f ∈ [float32_t, vec2], f.WellFormed) ∧
      (UBOStruct.derived vec4 [float32_t, vec2]).alignof ∣
        (UBOStruct.derived vec4 [float32_t, vec2]).sizeof :=
  have hwf : ∀ f ∈ [float32_t, vec2], f.WellFormed := by
    intro f hf
    simp only [List.mem_cons, List.mem_singleton, List.not_mem_nil, or_false] at hf
    rcases hf with rfl | rfl
    · exact ⟨by decide, 2, rfl⟩
    · exact ⟨by decide, 3, rfl⟩
  ⟨by decide, hwf, (C6_struct_size vec4 [float32_t, vec2] (by decide) hwf).2.1⟩

/-- C7: the base class of `Matrix<P, COLS, ROWS, order>` is built from the names `R` and
`C`, not from the template arguments: column-major it is the `Array` of `C` vectors of
`R` components, row-major of `R` vectors of `C` components, whatever `R` and `C` stand
for.  Read as `R = COLS`, `C = ROWS`, `Matrix<float, 3, 2>` is 2 vectors of 3 floats
(32 bytes); read as `R = ROWS`, `C = COLS`, it is 3 vectors of 2 floats (48 bytes), the
3 columns of 2 rows of the Matrix Rule. -/
theorem C7_Matrix_base_names_R_and_C :
    (∀ (names : MatrixNames) (P : CppType) (COLS ROWS : Nat),
      (Matrix names P COLS ROWS true).sizeof =
        (Array (Vector P (names.R COLS ROWS)) (names.C COLS ROWS)).sizeof ∧
      (Matrix names P COLS ROWS true).alignof =
        (Array (Vector P (names.R COLS ROWS)) (names.C COLS ROWS)).alignof ∧
      (Matrix names P COLS ROWS false).sizeof =
        (Array (Vector P (names.C COLS ROWS)) (names.R COLS ROWS)).sizeof ∧
      (Matrix names P COLS ROWS false).alignof =
        (Array (Vector P (names.C COLS ROWS)) (names.R COLS ROWS)).alignof) ∧
    (Matrix .colsAndRows GLfloat 3 2 true).sizeof = (Array (Vector GLfloat 3) 2).sizeof ∧
    (Matrix .colsAndRows GLfloat 3 2 true).sizeof = 32 ∧
    (Array (Vector GLfloat 2) 3).sizeof = 48 ∧
    (Matrix .rowsAndCols GLfloat 3 2 true).sizeof = 48 :=
  ⟨fun _ _ _ _ => ⟨rfl, rfl, rfl, rfl⟩, rfl, rfl, rfl, rfl⟩

/-- C8: read as `R = COLS`, `C = ROWS`, the column-major `Matrix<float, 3, 2>` has
element stride 16 and size 32, where the Matrix Rule gives the matrix of 3 columns and 2
rows stride 16 and size 48.  Read as `R = ROWS`, `C = COLS`, stride and size agree with
the Array Rule over the Vector Rule for `float` and `double`, 2 to 4 columns and rows,
and either major order. -/
theorem C8_Matrix_stride_size_by_names :
    (Matrix.stride .colsAndRows GLfloat 3 2 true = 16 ∧
      (Matrix .colsAndRows GLfloat 3 2 true).sizeof = 32 ∧
      Reference.matrixRule .float32 3 2 .columnMajor = .ok ⟨16, 48⟩) ∧
    (∀ (p : Reference.PrimitiveType) (C R : Nat) (columnMajor : Bool),
      p = .float32 ∨ p = .float64 → C = 2 ∨ C = 3 ∨ C = 4 → R = 2 ∨ R = 3 ∨ R = 4 →
      ∃ v a, Reference.vectorRule p (if columnMajor then R else C) = .ok v ∧
        Reference.arrayRule v (if columnMajor then C else R) = .ok a ∧
        Reference.matrixRule p C R (if columnMajor then .columnMajor else .rowMajor) =
          .ok a ∧
        Matrix.stride .rowsAndCols (glType p) C R columnMajor = Reference.elementStride v ∧
        (Matrix .rowsAndCols (glType p) C R columnMajor).sizeof = a.size) := by
  refine ⟨⟨rfl, rfl, rfl⟩, ?_⟩
  intro p C R columnMajor hp hC hR
  rcases hp with rfl | rfl <;> rcases hC with rfl | rfl | rfl <;>
    rcases hR with rfl | rfl | rfl <;> cases columnMajor <;>
    exact ⟨_, _, rfl, rfl, rfl, rfl, rfl⟩

/-- C9: every `Matrix<double, COLS, ROWS, order>` has alignment 16, whatever `R` and `C`
stand for, also when its vectors have 3 or 4 components, for which the Matrix Rule gives
32: `dmat3` has alignment 16 where the rule says 32, and in a struct
`float32_t a; dmat3 b;` the matrix starts at byte 16. -/
theorem C9_double_Matrix_alignment :
    (∀ names COLS ROWS columnMajor,
      (Matrix names GLdouble COLS ROWS columnMajor).alignof = 16) ∧
    (∀ names, (dmat3 names).alignof = 16) ∧
    Reference.matrixRule .float64 3 3 .columnMajor = .ok ⟨32, 96⟩ ∧
    (∀ names, memberOffsets [float32_t, dmat3 names] = [0, 16]) ∧
    (∀ names, UBOStruct.memberOffsets vec4 [float32_t, dmat3 names] = [0, 16]) ∧
    Reference.assignOffsets 0 [⟨4, 4⟩, ⟨32, 96⟩] = [0, 32] := by
  have hal : ∀ names, (dmat3 names).alignof = 16 := fun _ => rfl
  refine ⟨fun _ _ _ _ => rfl, hal, rfl, ?_, ?_, rfl⟩
  · intro names
    simp only [memberOffsets, placeFields, hal]
    rfl
  · intro names
    have h0 : firstMemberOffset (.UBOStruct vec4.name) [float32_t, dmat3 names] = 0 := rfl
    simp only [UBOStruct.memberOffsets, h0, placeFields, hal]
    rfl

/-- C10: in every class, with or without the `UBOStruct<T>` base, the offset of each
member is a multiple of the member's alignment (and every member has an offset). -/
theorem C10_offsets_aligned (T : CppType) (fields : List CppType) :
    ((memberOffsets fields).length = fields.length ∧
      ∀ p ∈ (memberOffsets fields).zip fields, p.2.alignof ∣ p.1) ∧
    ((UBOStruct.memberOffsets T fields).length = fields.length ∧
      ∀ p ∈ (UBOStruct.memberOffsets T fields).zip fields, p.2.alignof ∣ p.1) :=
  ⟨⟨placeFields_length 0 fields, placeFields_aligned 0 fields⟩,
    ⟨placeFields_length _ fields, placeFields_aligned _ fields⟩⟩

/-- C1: for the block `float a; dmat3 b;` the client struct puts `b` at byte 16 and has
alignment 16, whatever `R` and `C` stand for, and size 112 when they are the rows and
columns of the matrix, in either order, where the reference rules put `b` at byte 32 and
give size 128 and alignment 32. -/
theorem C1_client_differs_from_reference :
    (∀ names, clientOffsets names (.Struct [("a", .Scalar .float32),
        ("b", .Matrix .float64 3 3 .columnMajor)]) = some [("a", 0), ("b", 16)]) ∧
    (∀ names, (clientType names (.Struct [("a", .Scalar .float32),
        ("b", .Matrix .float64 3 3 .columnMajor)])).map CppType.alignof = some 16) ∧
    (clientType .rowsAndCols (.Struct [("a", .Scalar .float32),
        ("b", .Matrix .float64 3 3 .columnMajor)])).map
      (fun T => (T.sizeof, T.alignof, T.id)) = some (112, 16, TypeId.classType) ∧
    (clientType .colsAndRows (.Struct [("a", .Scalar .float32),
        ("b", .Matrix .float64 3 3 .columnMajor)])).map
      (fun T => (T.sizeof, T.alignof, T.id)) = some (112, 16, TypeId.classType) ∧
    Reference.offsetsOf (.Struct [("a", .Scalar .float32),
        ("b", .Matrix .float64 3 3 .columnMajor)]) =
      .ok ⟨[("a", 0), ("b", 32)], ⟨32, 128⟩⟩ := by
  have hal : ∀ names, (Matrix names GLdouble 3 3 true).alignof = 16 := fun _ => rfl
  have hoff : ∀ names, UBOStruct.memberOffsets vec4
      [float32_t, Matrix names GLdouble 3 3 true] = [0, 16] := by
    intro names
    have h0 : firstMemberOffset (.UBOStruct vec4.name)
        [float32_t, Matrix names GLdouble 3 3 true] = 0 := rfl
    simp only [UBOStruct.memberOffsets, h0, placeFields, hal]
    rfl
  have htypes : ∀ names, clientTypes names [("a", .Scalar .float32),
      ("b", .Matrix .float64 3 3 .columnMajor)] =
      some [float32_t, Matrix names GLdouble 3 3 true] := fun _ => rfl
  refine ⟨?_, ?_, rfl, rfl, rfl⟩
  · intro names
    simp only [clientOffsets, htypes, Option.bind_eq_bind, Option.some_bind, hoff]
    rfl
  · intro names
    simp only [clientType, htypes, Option.bind_eq_bind, Option.some_bind, Option.map_some']
    rfl

/-! ## Order and gaps of the members -/

theorem wellFormed_alignof_pos (fs : List CppType) (h : ∀ f ∈ fs, f.WellFormed) :
    ∀ f ∈ fs, 0 < f.alignof := by
  intro f hf
  obtain ⟨_, k, hk⟩ := h f hf
  rw [hk]
  exact Nat.two_pow_pos k

theorem cursor_le_placeFields (c : Nat) (fs : List CppType) (h : ∀ f ∈ fs, 0 < f.alignof) :
    ∀ o ∈ placeFields c fs, c ≤ o := by
  induction fs generalizing c with
  | nil => intro o ho; simp [placeFields] at ho
  | cons f fs ih =>
    have hf : 0 < f.alignof := h f (List.mem_cons_self f fs)
    have h1 := le_roundUpToMultiple c f.alignof hf
    intro o ho
    simp only [placeFields, List.mem_cons] at ho
    rcases ho with rfl | ho
    · exact h1
    · have := ih (roundUpToMultiple c f.alignof + f.sizeof)
        (fun g hg => h g (List.mem_cons_of_mem f hg)) o ho
      omega

theorem placeFields_ends_before (c : Nat) (fs : List CppType)
    (h : ∀ f ∈ fs, 0 < f.alignof) :
    ((placeFields c fs).zip fs).Pairwise (fun p q => p.1 + p.2.sizeof ≤ q.1) := by
  induction fs generalizing c with
  | nil => simp [placeFields]
  | cons f fs ih =>
    have hrest : ∀ g ∈ fs, 0 < g.alignof := fun g hg => h g (List.mem_cons_of_mem f hg)
    simp only [placeFields, List.zip_cons_cons, List.pairwise_cons]
    refine ⟨?_, ih _ hrest⟩
    intro q hq
    exact cursor_le_placeFields _ fs hrest q.1 (List.of_mem_zip hq).1

theorem placeFields_increasing (c : Nat) (fs : List CppType)
    (h : ∀ f ∈ fs, f.WellFormed) : (placeFields c fs).Pairwise (fun o o' => o < o') := by
  induction fs generalizing c with
  | nil => simp [placeFields]
  | cons f fs ih =>
    have hrest : ∀ g ∈ fs, g.WellFormed := fun g hg => h g (List.mem_cons_of_mem f hg)
    have hf : 0 < f.sizeof := (h f (List.mem_cons_self f fs)).1
    simp only [placeFields, List.pairwise_cons]
    refine ⟨?_, ih _ hrest⟩
    intro o ho
    have := cursor_le_placeFields _ fs (wellFormed_alignof_pos fs hrest) o ho
    omega

theorem placeFields_getElem?_succ (c : Nat) (fs : List CppType) (i o : Nat)
    (f g : CppType) (ho : (placeFields c fs)[i]? = some o) (hf : fs[i]? = some f)
    (hg : fs[i + 1]? = some g) :
    (placeFields c fs)[i + 1]? = some (roundUpToMultiple (o + f.sizeof) g.alignof) := by
  induction fs generalizing c i with
  | nil => simp at hf
  | cons f0 fs ih =>
    cases i with
    | zero =>
      simp only [placeFields, List.getElem?_cons_zero, Option.some.injEq] at ho hf
      subst ho hf
      cases fs with
      | nil => simp at hg
      | cons g0 rest =>
        simp only [zero_add, List.getElem?_cons_succ, List.getElem?_cons_zero,
          Option.some.injEq] at hg
        subst hg
        simp [placeFields]
    | succ j =>
      simp only [placeFields, List.getElem?_cons_succ] at ho hf hg ⊢
      exact ih _ j ho hf hg

theorem placeFields_getElem?_some (c : Nat) (fs : List CppType) (i : Nat) (f : CppType)
    (hf : fs[i]? = some f) : ∃ o, (placeFields c fs)[i]? = some o := by
  have hi : i < fs.length := by
    rcases Nat.lt_or_ge i fs.length with h | h
    · exact h
    · rw [List.getElem?_eq_none h] at hf
      cases hf
  have hi2 : i < (placeFields c fs).length := by rw [placeFields_length]; exact hi
  exact ⟨(placeFields c fs)[i], List.getElem?_eq_getElem hi2⟩

theorem offsets_from_some_cursor (T : CppType) (fields : List CppType) (offs : List Nat)
    (hoffs : offs = memberOffsets fields ∨ offs = UBOStruct.memberOffsets T fields) :
    ∃ c, offs = placeFields c fields := by
  rcases hoffs with h | h
  · exact ⟨0, h⟩
  · exact ⟨_, h⟩

/-- C11: in a class whose members are well-formed, with or without the `UBOStruct<T>`
base, the member offsets are strictly increasing in declaration order, every member ends
at or before the start of every later member, and so no byte belongs to two members. -/
theorem C11_fields_increasing_disjoint (T : CppType) (fields : List CppType)
    (offs : List Nat) (hwf : ∀ f ∈ fields, f.WellFormed)
    (hoffs : offs = memberOffsets fields ∨ offs = UBOStruct.memberOffsets T fields) :
    offs.Pairwise (fun o o' => o < o') ∧
    (offs.zip fields).Pairwise (fun p q => p.1 + p.2.sizeof ≤ q.1) ∧
    (offs.zip fields).Pairwise (fun p q =>
      ∀ x, ¬ ((p.1 ≤ x ∧ x < p.1 + p.2.sizeof) ∧ (q.1 ≤ x ∧ x < q.1 + q.2.sizeof))) := by
  obtain ⟨c, rfl⟩ := offsets_from_some_cursor T fields offs hoffs
  have hends := placeFields_ends_before c fields (wellFormed_alignof_pos fields hwf)
  refine ⟨placeFields_increasing c fields hwf, hends, ?_⟩
  refine List.Pairwise.imp ?_ hends
  intro p q hpq x hx
  omega

/-- Witness for C11 at `TestStruct4`, derived from `UBOStruct<>`. -/
theorem C11_fields_increasing_disjoint_witness :
    (∀ f ∈ TestStruct4.fields, f.WellFormed) ∧
      (UBOStruct.memberOffsets vec4 TestStruct4.fields).Pairwise (fun o o' => o < o') :=
  have hwf : ∀ f ∈ TestStruct4.fields, f.WellFormed := by
    intro f hf
    simp only [TestStruct4.fields, List.mem_cons, List.mem_singleton, List.not_mem_nil,
      or_false] at hf
    rcases hf with rfl | rfl | rfl | rfl | rfl
    · exact ⟨by decide, 4, rfl⟩
    · exact ⟨by decide, 4, rfl⟩
    · exact ⟨by decide, 4, rfl⟩
    · exact ⟨by decide, 4, rfl⟩
    · exact ⟨by decide, 2, rfl⟩
  ⟨hwf, (C11_fields_increasing_disjoint vec4 TestStruct4.fields _ hwf (Or.inr rfl)).1⟩

/-- C12: in a class whose members are well-formed, with or without the `UBOStruct<T>`
base, a member `g` that directly follows a member `f` has an offset, and that offset is
the least multiple of the alignment of `g` at or after the end of `f`; the gap between
the two is smaller than that alignment. -/
theorem C12_offset_least_multiple (T : CppType) (fields : List CppType) (offs : List Nat)
    (i : Nat) (f g : CppType) (hwf : ∀ f ∈ fields, f.WellFormed)
    (hoffs : offs = memberOffsets fields ∨ offs = UBOStruct.memberOffsets T fields)
    (hf : fields[i]? = some f) (hg : fields[i + 1]? = some g) :
    ∃ o o', offs[i]? = some o ∧ offs[i + 1]? = some o' ∧
      o' = roundUpToMultiple (o + f.sizeof) g.alignof ∧
      g.alignof ∣ o' ∧ o + f.sizeof ≤ o' ∧
      (∀ m, g.alignof ∣ m → o + f.sizeof ≤ m → o' ≤ m) ∧
      o' - (o + f.sizeof) < g.alignof := by
  obtain ⟨c, rfl⟩ := offsets_from_some_cursor T fields offs hoffs
  obtain ⟨o, ho⟩ := placeFields_getElem?_some c fields i f hf
  have ho' := placeFields_getElem?_succ c fields i o f g ho hf hg
  have hgpos : 0 < g.alignof :=
    wellFormed_alignof_pos fields hwf g (List.getElem?_mem hg)
  have hle := le_roundUpToMultiple (o + f.sizeof) g.alignof hgpos
  have hlt := roundUpToMultiple_lt (o + f.sizeof) g.alignof hgpos
  refine ⟨o, _, ho, ho', rfl, roundUpToMultiple_dvd _ _, hle, ?_, ?_⟩
  · intro m hm hx
    exact roundUpToMultiple_le_of_dvd _ _ m hgpos hm hx
  · omega

/-- Witness for C12 at the first two members of `TestStruct2`, derived from
`UBOStruct<>`. -/
theorem C12_offset_least_multiple_witness :
    ∃ o o', (UBOStruct.memberOffsets vec4 TestStruct2.fields)[0]? = some o ∧
      (UBOStruct.memberOffsets vec4 TestStruct2.fields)[0 + 1]? = some o' ∧
      o' = roundUpToMultiple (o + float32_t.sizeof) vec2.alignof ∧
      vec2.alignof ∣ o' ∧ o + float32_t.sizeof ≤ o' ∧
      (∀ m, vec2.alignof ∣ m → o + float32_t.sizeof ≤ m → o' ≤ m) ∧
      o' - (o + float32_t.sizeof) < vec2.alignof :=
  C12_offset_least_multiple vec4 TestStruct2.fields _ 0 float32_t vec2
    (by
      intro f hf
      simp only [TestStruct2.fields, List.mem_cons, List.mem_singleton, List.not_mem_nil,
        or_false] at hf
      rcases hf with rfl | rfl
      · exact ⟨by decide, 2, rfl⟩
      · exact ⟨by decide, 3, rfl⟩)
    (Or.inr rfl) rfl rfl

/-! ## Powers of two -/

theorem pow_two_max (a b : Nat) (ha : ∃ k, a = 2 ^ k) (hb : ∃ k, b = 2 ^ k) :
    ∃ k, max a b = 2 ^ k := by
  rcases Nat.le_total a b with h | h
  · rw [Nat.max_eq_right h]; exact hb
  · rw [Nat.max_eq_left h]; exact ha

theorem classAlign_pow_two (b : Nat) (fs : List CppType) (hb : ∃ k, b = 2 ^ k)
    (hfs : ∀ f ∈ fs, ∃ k, f.alignof = 2 ^ k) : ∃ k, classAlign b fs = 2 ^ k := by
  induction fs generalizing b with
  | nil => exact hb
  | cons f fs ih =>
    exact ih _ (pow_two_max b f.alignof hb (hfs f (List.mem_cons_self f fs)))
      (fun g hg => hfs g (List.mem_cons_of_mem f hg))

theorem Array_alignof_pow_two (T : CppType) (n : Nat) (h : ∃ k, T.templateAlignof = 2 ^ k) :
    ∃ k, (Array T n).alignof = 2 ^ k := by
  rcases Array_alignof_eq T n with h16 | ⟨_, hmax⟩
  · exact ⟨4, h16⟩
  · rw [hmax]
    exact pow_two_max _ _ h ⟨4, rfl⟩

theorem scalarTypedef_alignof_pow_two (p : Reference.PrimitiveType) :
    (∃ k, (scalarTypedef p).alignof = 2 ^ k) ∧
      ∃ k, (scalarTypedef p).templateAlignof = 2 ^ k := by
  cases p
  · exact ⟨⟨2, rfl⟩, ⟨0, rfl⟩⟩
  · exact ⟨⟨2, rfl⟩, ⟨2, rfl⟩⟩
  · exact ⟨⟨2, rfl⟩, ⟨2, rfl⟩⟩
  · exact ⟨⟨2, rfl⟩, ⟨2, rfl⟩⟩
  · exact ⟨⟨3, rfl⟩, ⟨3, rfl⟩⟩

theorem vectorTypedef_alignof_pow_two (p : Reference.PrimitiveType) (n : Nat) (T : CppType)
    (h : vectorTypedef p n = some T) :
    (∃ k, T.alignof = 2 ^ k) ∧ ∃ k, T.templateAlignof = 2 ^ k := by
  rcases n with _ | _ | _ | _ | _ | n <;> cases p <;>
    simp only [vectorTypedef, Option.some.injEq, reduceCtorEq] at h <;>
    subst h <;>
    first
      | exact ⟨⟨1, rfl⟩, ⟨0, rfl⟩⟩
      | exact ⟨⟨4, rfl⟩, ⟨0, rfl⟩⟩
      | exact ⟨⟨3, rfl⟩, ⟨2, rfl⟩⟩
      | exact ⟨⟨4, rfl⟩, ⟨2, rfl⟩⟩
      | exact ⟨⟨4, rfl⟩, ⟨3, rfl⟩⟩
      | exact ⟨⟨5, rfl⟩, ⟨3, rfl⟩⟩

theorem Matrix_alignof (names : MatrixNames) (p : Reference.PrimitiveType) (c r : Nat)
    (columnMajor : Bool) :
    (Matrix names (glType p) c r columnMajor).alignof = 16 ∧
      (Matrix names (glType p) c r columnMajor).templateAlignof = 16 := by
  cases p <;> exact ⟨rfl, rfl⟩

open Reference in
mutual
theorem clientType_alignof_pow_two (names : MatrixNames) :
    ∀ (shape : FieldKind) (T : CppType), clientType names shape = some T →
      (∃ k, T.alignof = 2 ^ k) ∧ ∃ k, T.templateAlignof = 2 ^ k
  | .Scalar p, T, h => by
    simp only [clientType, Option.some.injEq] at h
    subst h
    exact scalarTypedef_alignof_pow_two p
  | .Vector p n, T, h => by
    simp only [clientType] at h
    exact vectorTypedef_alignof_pow_two p n T h
  | .Matrix p c r o, T, h => by
    simp only [clientType, Option.some.injEq] at h
    subst h
    exact ⟨⟨4, (Matrix_alignof names p c r _).1⟩, ⟨4, (Matrix_alignof names p c r _).2⟩⟩
  | .Array e n, T, h => by
    simp only [clientType, Option.bind_eq_bind, Option.bind_eq_some, Option.some.injEq] at h
    obtain ⟨t, ht, rfl⟩ := h
    have hA := Array_alignof_pow_two t n (clientType_alignof_pow_two names e t ht).2
    exact ⟨hA, hA⟩
  | .Struct fs, T, h => by
    simp only [clientType, Option.bind_eq_bind, Option.bind_eq_some, Option.some.injEq] at h
    obtain ⟨ts, hts, rfl⟩ := h
    have hS : ∃ k, (UBOStruct.derived vec4 ts).alignof = 2 ^ k :=
      classAlign_pow_two _ ts ⟨4, rfl⟩
        (fun t ht => (clientTypes_alignof_pow_two names fs ts hts t ht).1)
    exact ⟨hS, hS⟩
theorem clientTypes_alignof_pow_two (names : MatrixNames) :
    ∀ (fs : List (String × FieldKind)) (ts : List CppType), clientTypes names fs = some ts →
      ∀ t ∈ ts, (∃ k, t.alignof = 2 ^ k) ∧ ∃ k, t.templateAlignof = 2 ^ k
  | [], ts, h => by
    simp only [clientTypes, Option.some.injEq] at h
    subst h
    intro t ht
    simp at ht
  | (_, shape) :: rest, ts, h => by
    simp only [clientTypes, Option.bind_eq_bind, Option.bind_eq_some, Option.some.injEq] at h
    obtain ⟨t0, ht0, ts0, hts0, rfl⟩ := h
    intro t ht
    rcases List.mem_cons.mp ht with rfl | ht
    · exact clientType_alignof_pow_two names shape t ht0
    · exact clientTypes_alignof_pow_two names rest ts0 hts0 t ht
end

theorem vectorTypedef_isSome (p : Reference.PrimitiveType) (n : Nat)
    (l : Reference.LayoutInfo) (h : Reference.vectorRule p n = .ok l) :
    ∃ T, vectorTypedef p n = some T := by
  unfold Reference.vectorRule at h
  split at h
  · rename_i hn
    rcases hn with rfl | rfl | rfl <;> cases p <;> exact ⟨_, rfl⟩
  · cases h

open Reference in
mutual
theorem clientType_isSome (names : MatrixNames) :
    ∀ (shape : FieldKind) (l : LayoutInfo), layoutOf shape = .ok l →
      ∃ T, clientType names shape = some T
  | .Scalar p, _, _ => ⟨scalarTypedef p, by simp only [clientType]⟩
  | .Vector p n, l, h => by
    simp only [layoutOf] at h
    simp only [clientType]
    exact vectorTypedef_isSome p n l h
  | .Matrix p c r o, _, _ =>
    ⟨Matrix names (glType p) c r (o == .columnMajor), by simp only [clientType]⟩
  | .Array e n, l, h => by
    simp only [layoutOf] at h
    cases he : layoutOf e with
    | error err => rw [he] at h; cases h
    | ok le =>
      obtain ⟨t, ht⟩ := clientType_isSome names e le he
      exact ⟨Array t n, by simp [clientType, ht]⟩
  | .Struct fs, l, h => by
    simp only [layoutOf] at h
    cases hfs : layoutsOf fs with
    | error err => rw [hfs] at h; cases h
    | ok ls =>
      obtain ⟨ts, hts⟩ := clientTypes_isSome names fs ls hfs
      exact ⟨UBOStruct.derived vec4 ts, by simp [clientType, hts]⟩
theorem clientTypes_isSome (names : MatrixNames) :
    ∀ (fs : List (String × FieldKind)) (ls : List LayoutInfo), layoutsOf fs = .ok ls →
      ∃ ts, clientTypes names fs = some ts
  | [], _, _ => ⟨[], by simp only [clientTypes]⟩
  | (_, shape) :: rest, ls, h => by
    simp only [layoutsOf] at h
    cases hk : layoutOf shape with
    | error err => rw [hk] at h; cases h
    | ok l0 =>
      cases hr : layoutsOf rest with
      | error err => rw [hk, hr] at h; cases h
      | ok ls0 =>
        obtain ⟨t, ht⟩ := clientType_isSome names shape l0 hk
        obtain ⟨ts, hts⟩ := clientTypes_isSome names rest ls0 hr
        exact ⟨t :: ts, by simp [clientTypes, ht, hts]⟩
end

/-- C13: every shape the reference rules accept (scalars, vectors of 2 to 4 components,
matrices, arrays of at least one element, structs, nested in any way) has a client type,
and the alignment of that type is a power of two, whatever `R` and `C` stand for. -/
theorem C13_alignment_pow_two (names : MatrixNames) (shape : Reference.FieldKind)
    (l : Reference.LayoutInfo) (h : Reference.layoutOf shape = .ok l) :
    ∃ T, clientType names shape = some T ∧ ∃ k, T.alignof = 2 ^ k := by
  obtain ⟨T, hT⟩ := clientType_isSome names shape l h
  exact ⟨T, hT, (clientType_alignof_pow_two names shape T hT).1⟩

/-- Witness for C13 at the struct shape `float a; vec3 b[2];`. -/
theorem C13_alignment_pow_two_witness :
    ∃ T, clientType .rowsAndCols (.Struct [("a", .Scalar .float32),
        ("b", .Array (.Vector .float32 3) 2)]) = some T ∧ ∃ k, T.alignof = 2 ^ k :=
  C13_alignment_pow_two .rowsAndCols (.Struct [("a", .Scalar .float32),
    ("b", .Array (.Vector .float32 3) 2)]) ⟨16, 48⟩ rfl

theorem alignof_le_classAlign (b : Nat) (fs : List CppType) :
    ∀ f ∈ fs, f.alignof ≤ classAlign b fs := by
  induction fs generalizing b with
  | nil => intro f hf; simp at hf
  | cons g fs ih =>
    intro f hf
    rcases List.mem_cons.mp hf with rfl | hf
    · exact Nat.le_trans (Nat.le_max_right b f.alignof) (base_le_classAlign _ fs)
    · exact ih _ f hf

theorem classAlign_max_base (b c : Nat) (fs : List CppType) :
    classAlign (max b c) fs = max c (classAlign b fs) := by
  rw [classAlign_eq_max, classAlign_eq_max]
  omega

theorem placeFields_getElem?_dvd (c : Nat) (fs : List CppType) (i o : Nat) (f : CppType)
    (ho : (placeFields c fs)[i]? = some o) (hf : fs[i]? = some f) : f.alignof ∣ o := by
  induction fs generalizing c i with
  | nil => simp at hf
  | cons f0 fs ih =>
    cases i with
    | zero =>
      simp only [placeFields, List.getElem?_cons_zero, Option.some.injEq] at ho hf
      subst ho hf
      exact roundUpToMultiple_dvd _ _
    | succ j =>
      simp only [placeFields, List.getElem?_cons_succ] at ho hf
      exact ih _ j ho hf

theorem ArrayAlignedType_derived (T : CppType) (fields : List CppType) :
    (ArrayAlignment.ArrayAlignedType (UBOStruct.derived T fields)).sizeof =
      (UBOStruct.derived T fields).sizeof ∧
    (ArrayAlignment.ArrayAlignedType (UBOStruct.derived T fields)).templateAlignof =
      (UBOStruct.derived T fields).alignof := by
  have hge := derived_alignof_ge T fields
  have hdvd := derived_alignof_dvd_sizeof T fields
  have hid : (UBOStruct.derived T fields).id = TypeId.classType := rfl
  have hta : (UBOStruct.derived T fields).templateAlignof =
      (UBOStruct.derived T fields).alignof := rfl
  have hmax : max (UBOStruct.derived T fields).alignof
      (max 16 (UBOStruct.derived T fields).alignof) = (UBOStruct.derived T fields).alignof := by
    omega
  have hround : roundUpToMultiple (UBOStruct.derived T fields).sizeof
      (UBOStruct.derived T fields).alignof = (UBOStruct.derived T fields).sizeof :=
    roundUpToMultiple_eq_self _ _ (by omega) hdvd
  simp only [ArrayAlignment.ArrayAlignedType, ArrayAlignment.AlignmentValue, hid,
    ArrayAlignedStruct, vec4_alignof, hta, hmax, hround, and_self]

/-- C14: for a well-formed element type and a count `n ≥ 1`, the element stride of
`Array<T, n>` is a positive multiple of 16 and the size of the array is `stride * n`
(so the size is a multiple of 16 too, and at least 16). -/
theorem C14_Array_stride_multiple_of_16 (T : CppType) (n : Nat) (hn : 1 ≤ n)
    (hwf : T.WellFormed) (hta : ∃ k, T.templateAlignof = 2 ^ k) :
    16 ∣ Array.stride T ∧ 0 < Array.stride T ∧
    (Array T n).sizeof = Array.stride T * n ∧
    16 ∣ (Array T n).sizeof ∧ 16 ≤ (Array T n).sizeof := by
  have hsz : (Array T n).sizeof = Array.stride T * n := rfl
  have hst : 16 ∣ Array.stride T ∧ 0 < Array.stride T := by
    rcases Array_stride_eq T with h | ⟨_, h⟩
    · rw [h]; exact ⟨Nat.dvd_refl 16, by decide⟩
    · have h16 := pow_two_max_sixteen T.templateAlignof hta
      have hpos : 0 < max T.templateAlignof 16 := by omega
      rw [h]
      exact ⟨Nat.dvd_trans h16 (roundUpToMultiple_dvd _ _),
        Nat.lt_of_lt_of_le hwf.1 (le_roundUpToMultiple _ _ hpos)⟩
  have hd : 16 ∣ (Array T n).sizeof := by
    rw [hsz]; exact Dvd.dvd.mul_right hst.1 n
  have hpos : 0 < (Array T n).sizeof := by
    rw [hsz]; exact Nat.mul_pos hst.2 hn
  exact ⟨hst.1, hst.2, hsz, hd, Nat.le_of_dvd hpos hd⟩

/-- Witness for C14 at `Array<vec3, 2>`. -/
theorem C14_Array_stride_multiple_of_16_witness :
    1 ≤ 2 ∧ vec3.WellFormed ∧ (∃ k, vec3.templateAlignof = 2 ^ k) ∧
      16 ∣ Array.stride vec3 ∧ (Array vec3 2).sizeof = Array.stride vec3 * 2 :=
  ⟨by decide, ⟨by decide, 4, rfl⟩, ⟨2, rfl⟩,
    (C14_Array_stride_multiple_of_16 vec3 2 (by decide) ⟨by decide, 4, rfl⟩ ⟨2, rfl⟩).1,
    (C14_Array_stride_multiple_of_16 vec3 2 (by decide) ⟨by decide, 4, rfl⟩ ⟨2, rfl⟩).2.2.1⟩

/-- C15: for a struct `S` derived from `UBOStruct<T>` and every count `n`, the element
stride of `Array<S, n>` is `sizeof(S)` and its alignment is `alignof(S)`, so element `i`
starts at `i * sizeof(S)` and a field of it lies that far after its offset in `S`.
`TestStruct` has size 16 and fields at 0, 4, 8; those of the second element of
`Array<TestStruct, 2>` lie at 16, 20, 24. -/
theorem C15_Array_of_struct (T : CppType) (fields : List CppType) (n : Nat) :
    Array.stride (UBOStruct.derived T fields) = (UBOStruct.derived T fields).sizeof ∧
    (Array (UBOStruct.derived T fields) n).alignof = (UBOStruct.derived T fields).alignof ∧
    (Array (UBOStruct.derived T fields) n).sizeof = n * (UBOStruct.derived T fields).sizeof ∧
    (∀ i, Array.elementOffset (UBOStruct.derived T fields) i =
      i * (UBOStruct.derived T fields).sizeof) ∧
    TestStruct.sizeof = 16 ∧ UBOStruct.memberOffsets vec4 TestStruct.fields = [0, 4, 8] ∧
    (UBOStruct.memberOffsets vec4 TestStruct.fields).map
      (fun o => Array.elementOffset TestStruct 1 + o) = [16, 20, 24] := by
  have key := ArrayAlignedType_derived T fields
  have hst : Array.stride (UBOStruct.derived T fields) = (UBOStruct.derived T fields).sizeof :=
    key.1
  refine ⟨hst, key.2, ?_, ?_, rfl, rfl, rfl⟩
  · show Array.stride (UBOStruct.derived T fields) * n = _
    rw [hst, Nat.mul_comm]
  · intro i
    simp only [Array.elementOffset, hst]

theorem firstMemberOffset_eq_zero (base : TypeName) (fields : List CppType)
    (h : base ∉ firstMemberBases fields) : firstMemberOffset base fields = 0 := by
  cases fields with
  | nil => rfl
  | cons f fs =>
    have hf : base ∉ f.emptyBases := h
    simp only [firstMemberOffset, hf, if_false]

/-- C16: with the fields `TestStruct3 a; float32_t b;` and the hint `TestStruct3`, the
type of the first field, the struct derived from `UBOStruct<TestStruct3>` has its fields
at 0 and 16 and size 32, while the same struct derived from `UBOStruct<>` has them at 16
and 32 and size 48: `TestStruct3` begins with the `UBOStruct<>` base itself and cannot
share byte 0 with it.  The alignment is the same under both bases, the maximum of 16 and
the field alignments, for every hint that is one of the fields; offsets and size are the
same when the first field begins with neither of the two bases. -/
theorem C16_hint_of_own_struct_field :
    TestStruct3 ∈ [TestStruct3, float32_t] ∧
    UBOStruct.memberOffsets TestStruct3 [TestStruct3, float32_t] = [0, 16] ∧
    (UBOStruct.derived TestStruct3 [TestStruct3, float32_t]).sizeof = 32 ∧
    UBOStruct.memberOffsets vec4 [TestStruct3, float32_t] = [16, 32] ∧
    (UBOStruct.derived vec4 [TestStruct3, float32_t]).sizeof = 48 ∧
    (∀ (T : CppType) (fields : List CppType), T ∈ fields → T.templateAlignof ≤ T.alignof →
      ((UBOStruct.derived T fields).alignof = (UBOStruct.derived vec4 fields).alignof ∧
        (UBOStruct.derived T fields).alignof =
          max 16 ((fields.map CppType.alignof).foldr max 0)) ∧
      (TypeName.UBOStruct T.name ∉ firstMemberBases fields →
        TypeName.UBOStruct vec4.name ∉ firstMemberBases fields →
        UBOStruct.memberOffsets T fields = UBOStruct.memberOffsets vec4 fields ∧
        (UBOStruct.derived T fields).sizeof = (UBOStruct.derived vec4 fields).sizeof)) := by
  refine ⟨List.mem_cons_self _ _, rfl, rfl, rfl, rfl, ?_⟩
  intro T fields hT hta
  have hle : T.alignof ≤ classAlign 16 fields := alignof_le_classAlign 16 fields T hT
  have hbase : (UBOStruct T).alignof = max 16 T.templateAlignof := by
    simp only [UBOStruct, AlignOrVec4Align, vec4_alignof]
    split <;> omega
  have hal : classAlign (UBOStruct T).alignof fields = classAlign 16 fields := by
    rw [hbase, classAlign_max_base]
    omega
  have h1 : (UBOStruct.derived T fields).alignof = classAlign 16 fields := hal
  have h2 : (UBOStruct.derived vec4 fields).alignof = classAlign 16 fields := rfl
  refine ⟨⟨by rw [h1, h2], by rw [h1]; exact classAlign_eq_max 16 fields⟩, ?_⟩
  intro hT0 hv0
  have e1 := firstMemberOffset_eq_zero _ fields hT0
  have e2 := firstMemberOffset_eq_zero _ fields hv0
  constructor
  · simp only [UBOStruct.memberOffsets, e1, e2]
  · show roundUpToMultiple (max 1 (rawExtent _ fields)) (classAlign (UBOStruct T).alignof fields) =
      roundUpToMultiple (max 1 (rawExtent _ fields)) (classAlign (UBOStruct vec4).alignof fields)
    rw [e1, e2, hal]
    rfl

/-! ## Scenarios of the unit test -/

theorem getElem?_append_cons_cons (pre post : List CppType) (a b : CppType) :
    (pre ++ a :: b :: post)[pre.length]? = some a ∧
    (pre ++ a :: b :: post)[pre.length + 1]? = some b := by
  constructor
  · rw [List.getElem?_append_right (Nat.le_refl _), Nat.sub_self]
    rfl
  · have e : pre.length + 1 - pre.length = 1 := by omega
    rw [List.getElem?_append_right (Nat.le_succ _), e]
    simp

theorem offsets_of_neighbours (c : Nat) (pre post : List CppType) (a b : CppType) :
    ∃ o, (placeFields c (pre ++ a :: b :: post))[pre.length]? = some o ∧
      (placeFields c (pre ++ a :: b :: post))[pre.length + 1]? =
        some (roundUpToMultiple (o + a.sizeof) b.alignof) ∧
      a.alignof ∣ o := by
  obtain ⟨hA, hB⟩ := getElem?_append_cons_cons pre post a b
  obtain ⟨o, ho⟩ := placeFields_getElem?_some c _ _ _ hA
  exact ⟨o, ho, placeFields_getElem?_succ c _ _ o _ _ ho hA hB,
    placeFields_getElem?_dvd c _ _ o _ ho hA⟩

theorem Array_vec3_sizeof (n : Nat) : (Array vec3 n).sizeof = 16 * n := rfl

theorem Array_vec3_alignof (n : Nat) : (Array vec3 n).alignof = 16 := rfl

/-- C17: `TestStruct4` has its fields at 0, 16, 32, 64, 128 and size 144, and the second
element of `Array<TestStruct4, 2>` starts at byte 144; in any class, with or without the
`UBOStruct<T>` base, a scalar declared right after an `Array<vec3, n>` placed at offset
`o` is placed at `o + 16 * n`. -/
theorem C17_scalar_after_vec3_array :
    UBOStruct.memberOffsets vec4 TestStruct4.fields = [0, 16, 32, 64, 128] ∧
    TestStruct4.sizeof = 144 ∧
    Array.elementOffset TestStruct4 1 = 144 ∧
    ∀ (T : CppType) (pre post : List CppType) (n : Nat) (s : CppType) (offs : List Nat),
      s ∈ [float32_t, double64_t, bool32_t, int32_t, uint32_t] →
      (offs = memberOffsets (pre ++ Array vec3 n :: s :: post) ∨
        offs = UBOStruct.memberOffsets T (pre ++ Array vec3 n :: s :: post)) →
      ∃ o, offs[pre.length]? = some o ∧ offs[pre.length + 1]? = some (o + 16 * n) := by
  refine ⟨rfl, rfl, rfl, ?_⟩
  intro T pre post n s offs hs hoffs
  obtain ⟨c, rfl⟩ := offsets_from_some_cursor T _ offs hoffs
  obtain ⟨o, ho, ho', h16⟩ := offsets_of_neighbours c pre post (Array vec3 n) s
  rw [Array_vec3_alignof] at h16
  have hs16 : 0 < s.alignof ∧ s.alignof ∣ 16 := by
    simp only [List.mem_cons, List.mem_singleton, List.not_mem_nil, or_false] at hs
    rcases hs with rfl | rfl | rfl | rfl | rfl <;> exact ⟨by decide, by decide⟩
  have hdvd : s.alignof ∣ o + 16 * n :=
    Nat.dvd_add (Nat.dvd_trans hs16.2 h16) (Dvd.dvd.mul_right hs16.2 n)
  refine ⟨o, ho, ?_⟩
  rw [ho', Array_vec3_sizeof, roundUpToMultiple_eq_self _ _ hs16.1 hdvd]

/-- C18: `TestStruct2` has its fields at 0 and 8, size 16 and alignment 16, and the
fields of the second element of `Array<TestStruct2, 2>` lie at 16 and 24. -/
theorem C18_TestStruct2 :
    UBOStruct.memberOffsets vec4 TestStruct2.fields = [0, 8] ∧
    TestStruct2.sizeof = 16 ∧ TestStruct2.alignof = 16 ∧
    (UBOStruct.memberOffsets vec4 TestStruct2.fields).map
      (fun o => Array.elementOffset TestStruct2 1 + o) = [16, 24] :=
  ⟨rfl, rfl, rfl, rfl⟩

/-- C19: for every count `n`, `Array<float32_t, n>` has alignment 16, element stride 16
and size `16 * n` (80 for `n = 5`); in `TestStruct6` the array is at byte 0 and the
`float` after it at byte 80. -/
theorem C19_Array_float32_t (n : Nat) :
    (Array float32_t n).alignof = 16 ∧ Array.stride float32_t = 16 ∧
    (Array float32_t n).sizeof = 16 * n ∧ (Array float32_t 5).sizeof = 80 ∧
    UBOStruct.memberOffsets vec4 TestStruct6.fields = [0, 80] :=
  ⟨rfl, rfl, rfl, rfl, rfl⟩

/-- C20: read as `R = COLS`, `C = ROWS`, `mat3x2` has size 32 and `TestMatrixStruct` has
its fields at 0, 48, 64, 96, 144, where the reference rules give size 48 and the offsets
0, 48, 64, 112, 144.  Read as `R = ROWS`, `C = COLS`, a column-major
`Matrix<float, C, R>` with 2 to 4 columns and rows has element stride 16, size `16 * C`
and alignment 16, and `TestMatrixStruct` has the offsets of the reference rules. -/
theorem C20_float_Matrix_by_names :
    ((mat3x2 .colsAndRows).sizeof = 32 ∧
      UBOStruct.memberOffsets vec4 (TestMatrixStruct.fields .colsAndRows) =
        [0, 48, 64, 96, 144]) ∧
    (Reference.matrixRule .float32 3 2 .columnMajor = .ok ⟨16, 48⟩ ∧
      Reference.offsetsOf (.Struct [("a", .Matrix .float32 3 3 .columnMajor),
          ("b", .Scalar .float32), ("c", .Matrix .float32 3 2 .columnMajor),
          ("d", .Matrix .float32 2 3 .columnMajor), ("e", .Scalar .float32)]) =
        .ok ⟨[("a", 0), ("b", 48), ("c", 64), ("d", 112), ("e", 144)], ⟨16, 160⟩⟩) ∧
    ((mat3x2 .rowsAndCols).sizeof = 48 ∧
      UBOStruct.memberOffsets vec4 (TestMatrixStruct.fields .rowsAndCols) =
        [0, 48, 64, 112, 144]) ∧
    (∀ C R : Nat, C = 2 ∨ C = 3 ∨ C = 4 → R = 2 ∨ R = 3 ∨ R = 4 →
      Matrix.stride .rowsAndCols GLfloat C R true = 16 ∧
      (Matrix .rowsAndCols GLfloat C R true).sizeof = 16 * C ∧
      (Matrix .rowsAndCols GLfloat C R true).alignof = 16) := by
  refine ⟨⟨rfl, rfl⟩, ⟨rfl, rfl⟩, ⟨rfl, rfl⟩, ?_⟩
  intro C R hC hR
  rcases hC with rfl | rfl | rfl <;> rcases hR with rfl | rfl | rfl <;>
    exact ⟨rfl, rfl, rfl⟩

theorem vec3_sizeof : vec3.sizeof = 12 := rfl

theorem vec3_alignof : vec3.alignof = 16 := rfl

/-- C21: in any class, with or without the `UBOStruct<T>` base, a 4-byte scalar declared
right after a `vec3` placed at offset `o` is placed at `o + 12`, in the unused fourth
component. `TestStruct5` has its fields at 0, 16, 32, 64, 112, 124 and size 128;
`InstanceMaterial` has them at 0, 12, 16, 28 and size 32. -/
theorem C21_scalar_after_vec3 :
    (∀ (T : CppType) (pre post : List CppType) (s : CppType) (offs : List Nat),
      s ∈ [float32_t, int32_t, uint32_t] →
      (offs = memberOffsets (pre ++ vec3 :: s :: post) ∨
        offs = UBOStruct.memberOffsets T (pre ++ vec3 :: s :: post)) →
      s.sizeof = 4 ∧
      ∃ o, offs[pre.length]? = some o ∧ offs[pre.length + 1]? = some (o + 12)) ∧
    UBOStruct.memberOffsets vec4 TestStruct5.fields = [0, 16, 32, 64, 112, 124] ∧
    TestStruct5.sizeof = 128 ∧
    UBOStruct.memberOffsets vec4 InstanceMaterial.fields = [0, 12, 16, 28] ∧
    InstanceMaterial.sizeof = 32 := by
  refine ⟨?_, rfl, rfl, rfl, rfl⟩
  intro T pre post s offs hs hoffs
  obtain ⟨c, rfl⟩ := offsets_from_some_cursor T _ offs hoffs
  have hs4 : s.sizeof = 4 ∧ s.alignof = 4 := by
    simp only [List.mem_cons, List.mem_singleton, List.not_mem_nil, or_false] at hs
    rcases hs with rfl | rfl | rfl <;> exact ⟨rfl, rfl⟩
  obtain ⟨o, ho, ho', h16⟩ := offsets_of_neighbours c pre post vec3 s
  rw [vec3_alignof] at h16
  have hdvd : 4 ∣ o + 12 := by omega
  refine ⟨hs4.1, o, ho, ?_⟩
  rw [ho', vec3_sizeof, hs4.2, roundUpToMultiple_eq_self _ _ (by decide) hdvd]

/-- C22: in any class, with or without the `UBOStruct<U>` base, a well-formed field
declared right after a field whose type `S` is a struct derived from `UBOStruct<T>`,
placed at offset `o`, is placed at or after `o + sizeof(S)`, where `sizeof(S)` is already
a multiple of `alignof(S)`. `TestStruct3B` has its fields at 0, 16, 32. -/
theorem C22_after_nested_struct (U : CppType) (pre post : List CppType) (T : CppType)
    (fs : List CppType) (g : CppType) (offs : List Nat) (hg : g.WellFormed)
    (hoffs : offs = memberOffsets (pre ++ UBOStruct.derived T fs :: g :: post) ∨
      offs = UBOStruct.memberOffsets U (pre ++ UBOStruct.derived T fs :: g :: post)) :
    (∃ o o', offs[pre.length]? = some o ∧ offs[pre.length + 1]? = some o' ∧
      o + (UBOStruct.derived T fs).sizeof ≤ o') ∧
    (UBOStruct.derived T fs).alignof ∣ (UBOStruct.derived T fs).sizeof ∧
    memberOffsets TestStruct3B.fields = [0, 16, 32] := by
  obtain ⟨c, rfl⟩ := offsets_from_some_cursor U _ offs hoffs
  obtain ⟨o, ho, ho', _⟩ := offsets_of_neighbours c pre post (UBOStruct.derived T fs) g
  have hgpos : 0 < g.alignof := by
    obtain ⟨_, k, hk⟩ := hg
    rw [hk]
    exact Nat.two_pow_pos k
  exact ⟨⟨o, _, ho, ho', le_roundUpToMultiple _ _ hgpos⟩,
    derived_alignof_dvd_sizeof T fs, rfl⟩

/-- Witness for C22 at `TestStruct3B`: `TestStruct3 a; TestStruct3 b; float c;`. -/
theorem C22_after_nested_struct_witness :
    GLfloat.WellFormed ∧
      (∃ o o', (memberOffsets TestStruct3B.fields)[1]? = some o ∧
        (memberOffsets TestStruct3B.fields)[1 + 1]? = some o' ∧
        o + TestStruct3.sizeof ≤ o') :=
  ⟨⟨by decide, 2, rfl⟩,
    (C22_after_nested_struct vec4 [TestStruct3] [] vec4 TestStruct3.fields GLfloat _
      ⟨by decide, 2, rfl⟩ (Or.inl rfl)).1⟩

/-- C23: in `DirectionalLightUBO` (and `PointLightUBO`) the count is at byte 0 and the
array at byte 16, element `i` of the array starts `32 * i` bytes into it and its first
field is at its start, so that field lies at `16 + 32 * i`; in a block holding only an
`Array<InstanceMaterial, N>` the array is at byte 0 and the first field of element `i`
at `32 * i`. -/
theorem C23_light_and_sphere_blocks :
    memberOffsets DirectionalLightUBO.fields = [0, 16] ∧
    memberOffsets PointLightUBO.fields = [0, 16] ∧
    UBOStruct.memberOffsets vec4 DirectionalLight.fields = [0, 16] ∧
    UBOStruct.memberOffsets vec4 PointLight.fields = [0, 16] ∧
    (∀ i, 16 + Array.elementOffset DirectionalLight i + 0 = 16 + 32 * i) ∧
    (∀ i, 16 + Array.elementOffset PointLight i + 0 = 16 + 32 * i) ∧
    (∀ N, memberOffsets [Array InstanceMaterial N] = [0]) ∧
    memberOffsets SphereUBO.fields = [0] ∧
    (UBOStruct.memberOffsets vec4 InstanceMaterial.fields).head? = some 0 ∧
    (∀ i, 0 + Array.elementOffset InstanceMaterial i + 0 = 32 * i) := by
  have hD : Array.stride DirectionalLight = 32 := rfl
  have hP : Array.stride PointLight = 32 := rfl
  have hI : Array.stride InstanceMaterial = 32 := rfl
  refine ⟨rfl, rfl, rfl, rfl, ?_, ?_, ?_, rfl, rfl, ?_⟩
  · intro i
    simp only [Array.elementOffset, hD]
    omega
  · intro i
    simp only [Array.elementOffset, hP]
    omega
  · intro N
    have hal : (Array InstanceMaterial N).alignof = 16 := rfl
    simp only [memberOffsets, placeFields, hal]
    rfl
  · intro i
    simp only [Array.elementOffset, hI]
    omega

theorem firstMemberOffset_append (base : TypeName) (L : List CppType) (f : CppType)
    (hL : L ≠ []) : firstMemberOffset base (L ++ [f]) = firstMemberOffset base L := by
  cases L with
  | nil => exact absurd rfl hL
  | cons g rest => rfl

/-- C30: appending a field to a class, with or without the `UBOStruct<T>` base, leaves
the offsets of the fields before it as they were. -/
theorem C30_append_keeps_offsets (T : CppType) (L : List CppType) (f : CppType) :
    ((memberOffsets (L ++ [f])).take L.length = memberOffsets L ∧
      ∀ i, i < L.length → (memberOffsets (L ++ [f]))[i]? = (memberOffsets L)[i]?) ∧
    ((UBOStruct.memberOffsets T (L ++ [f])).take L.length = UBOStruct.memberOffsets T L ∧
      ∀ i, i < L.length →
        (UBOStruct.memberOffsets T (L ++ [f]))[i]? = (UBOStruct.memberOffsets T L)[i]?) := by
  have key : ∀ c, (placeFields c (L ++ [f])).take L.length = placeFields c L ∧
      ∀ i, i < L.length → (placeFields c (L ++ [f]))[i]? = (placeFields c L)[i]? := by
    intro c
    have h := placeFields_concat c L f
    have hlen : (placeFields c L).length = L.length := placeFields_length c L
    constructor
    · rw [h, ← hlen, List.take_left']
      rfl
    · intro i hi
      rw [h, List.getElem?_append_left (by rw [hlen]; exact hi)]
  refine ⟨key 0, ?_⟩
  rcases List.eq_nil_or_concat L with hL | ⟨init, g, hL⟩
  · subst hL
    exact ⟨rfl, fun i hi => absurd hi (Nat.not_lt_zero i)⟩
  · have hne : L ≠ [] := by
      rw [hL]; simp
    have hc := firstMemberOffset_append (.UBOStruct T.name) L f hne
    simp only [UBOStruct.memberOffsets, hc]
    exact key _

/-! ## Double vectors, booleans, and shapes outside the rules -/

theorem thirty_two_dvd_of_pow_two (a : Nat) (h : ∃ k, a = 2 ^ k) (h32 : 32 ≤ a) :
    32 ∣ a := by
  obtain ⟨k, rfl⟩ := h
  rcases Nat.lt_or_ge k 5 with hk | hk
  · have : 2 ^ k ≤ 2 ^ 4 := Nat.pow_le_pow_right (by decide) (Nat.le_of_lt_succ hk)
    have : 2 ^ k ≤ 16 := by simpa using this
    omega
  · have := Nat.pow_dvd_pow 2 hk
    simpa using this

theorem AlignOrVec4Align_pow_two (T : CppType) (h : ∃ k, T.templateAlignof = 2 ^ k) :
    ∃ k, AlignOrVec4Align T = 2 ^ k := by
  unfold AlignOrVec4Align
  split
  · exact h
  · exact ⟨4, rfl⟩

/-- C24: in a struct derived from `UBOStruct<T>` whose hint and fields have power-of-two
alignments, a `dvec3` or `dvec4` field has an offset that is a multiple of 32, and the
alignment, the size and the array stride of the struct are multiples of 32.
`TestDoubleStruct` and `TestDoubleStruct2` both have their fields at 0 and 32 and array
stride 64. -/
theorem C24_dvec_fields (T : CppType) (fields : List CppType) (d : CppType) (i : Nat)
    (hT : ∃ k, T.templateAlignof = 2 ^ k) (hwf : ∀ f ∈ fields, ∃ k, f.alignof = 2 ^ k)
    (hd : d = dvec3 ∨ d = dvec4) (hi : fields[i]? = some d) :
    (∃ o, (UBOStruct.memberOffsets T fields)[i]? = some o ∧ 32 ∣ o) ∧
    32 ∣ (UBOStruct.derived T fields).alignof ∧
    32 ∣ (UBOStruct.derived T fields).sizeof ∧
    32 ∣ Array.stride (UBOStruct.derived T fields) ∧
    UBOStruct.memberOffsets dvec4 TestDoubleStruct.fields = [0, 32] ∧
    Array.stride TestDoubleStruct = 64 ∧
    UBOStruct.memberOffsets dvec4 TestDoubleStruct2.fields = [0, 32] ∧
    Array.stride TestDoubleStruct2 = 64 := by
  have hd32 : d.alignof = 32 := by
    rcases hd with rfl | rfl <;> rfl
  obtain ⟨o, ho⟩ := placeFields_getElem?_some
    (firstMemberOffset (.UBOStruct T.name) fields) fields i d hi
  have hoff : 32 ∣ o := by
    have := placeFields_getElem?_dvd _ fields i o d ho hi
    rwa [hd32] at this
  have hmem : d ∈ fields := List.getElem?_mem hi
  have hge : 32 ≤ (UBOStruct.derived T fields).alignof := by
    have := alignof_le_classAlign (UBOStruct T).alignof fields d hmem
    rw [hd32] at this
    exact this
  have hpow : ∃ k, (UBOStruct.derived T fields).alignof = 2 ^ k :=
    classAlign_pow_two _ fields (AlignOrVec4Align_pow_two T hT) hwf
  have hal : 32 ∣ (UBOStruct.derived T fields).alignof :=
    thirty_two_dvd_of_pow_two _ hpow hge
  have hsz : 32 ∣ (UBOStruct.derived T fields).sizeof :=
    Nat.dvd_trans hal (derived_alignof_dvd_sizeof T fields)
  have hst : Array.stride (UBOStruct.derived T fields) = (UBOStruct.derived T fields).sizeof :=
    (ArrayAlignedType_derived T fields).1
  exact ⟨⟨o, ho, hoff⟩, hal, hsz, by rw [hst]; exact hsz, rfl, rfl, rfl, rfl⟩

/-- Witness for C24 at `TestDoubleStruct2`: hint `dvec4`, fields `vec2 a; dvec3 b;`. -/
theorem C24_dvec_fields_witness :
    (∃ o, (UBOStruct.memberOffsets dvec4 TestDoubleStruct2.fields)[1]? = some o ∧ 32 ∣ o) ∧
      32 ∣ (UBOStruct.derived dvec4 TestDoubleStruct2.fields).alignof :=
  have h := C24_dvec_fields dvec4 TestDoubleStruct2.fields dvec3 1 ⟨3, rfl⟩
    (by
      intro f hf
      simp only [TestDoubleStruct2.fields, List.mem_cons, List.mem_singleton,
        List.not_mem_nil, or_false] at hf
      rcases hf with rfl | rfl
      · exact ⟨3, rfl⟩
      · exact ⟨5, rfl⟩)
    (Or.inl rfl) rfl
  ⟨h.1, h.2.1⟩

/-- C25: `bool32_t` has alignment 4 and size 1, the size of `GLboolean`, where the
Primitive Catalog gives bool32 size 4; the other four scalar typedefs have alignment
equal to size (4, 4, 4 and 8). -/
theorem C25_bool32_t_size :
    bool32_t.sizeof = 1 ∧ bool32_t.alignof = 4 ∧
    Reference.PrimitiveType.size .bool32 = 4 ∧
    (int32_t.sizeof = 4 ∧ int32_t.alignof = 4) ∧
    (uint32_t.sizeof = 4 ∧ uint32_t.alignof = 4) ∧
    (float32_t.sizeof = 4 ∧ float32_t.alignof = 4) ∧
    (double64_t.sizeof = 8 ∧ double64_t.alignof = 8) :=
  ⟨rfl, rfl, rfl, ⟨rfl, rfl⟩, ⟨rfl, rfl⟩, ⟨rfl, rfl⟩, ⟨rfl, rfl⟩⟩

/-- C26, counterexample: for 5 components the alignment computation returns 0, where the
Vector Rule answers `InvalidShape`. -/
theorem C26_vectorAlignment_of_5 :
    vectorAlignment GLfloat 5 = 0 ∧ VectorAlignment.AlignmentValue GLfloat 5 = 0 ∧
    Reference.vectorRule .float32 5 = .error .InvalidShape :=
  ⟨rfl, rfl, rfl⟩

/-- C26, amended: for every component type and every length other than 2, 3 and 4, both
`vectorAlignment<P, n>()` and `VectorAlignment<P, n>::AlignmentValue` return 0. -/
theorem C26_vectorAlignment_outside (P : CppType) (n : Nat) (h2 : n ≠ 2) (h3 : n ≠ 3)
    (h4 : n ≠ 4) :
    vectorAlignment P n = 0 ∧ VectorAlignment.AlignmentValue P n = 0 := by
  rcases n with _ | _ | _ | _ | _ | n
  · exact ⟨rfl, rfl⟩
  · exact ⟨rfl, rfl⟩
  · exact absurd rfl h2
  · exact absurd rfl h3
  · exact absurd rfl h4
  · exact ⟨rfl, rfl⟩

/-- Witness for the amended C26 at `vectorAlignment<GLdouble, 7>()`. -/
theorem C26_vectorAlignment_outside_witness :
    7 ≠ 2 ∧ 7 ≠ 3 ∧ 7 ≠ 4 ∧ vectorAlignment GLdouble 7 = 0 ∧
      VectorAlignment.AlignmentValue GLdouble 7 = 0 :=
  ⟨by decide, by decide, by decide,
    C26_vectorAlignment_outside GLdouble 7 (by decide) (by decide) (by decide)⟩

/-- C27, counterexample: the shape `float[0]` has the client type `Array<float32_t, 0>`,
where the Array Rule answers `InvalidShape`. -/
theorem C27_Array_of_0_floats :
    (∀ names, clientType names (.Array (.Scalar .float32) 0) = some (Array float32_t 0)) ∧
    Reference.layoutOf (.Array (.Scalar .float32) 0) = .error .InvalidShape :=
  ⟨fun _ => rfl, rfl⟩

/-- C27, amended: for every element shape that has a client type `t`, the array of 0
elements has the client type `Array<t, 0>`: count 0 is accepted like any other count,
and only the reference rules answer `InvalidShape` for it. -/
theorem C27_Array_count_zero_accepted (names : MatrixNames) (e : Reference.FieldKind)
    (t : CppType) (h : clientType names e = some t) :
    clientType names (.Array e 0) = some (Array t 0) ∧
    Reference.layoutOf (.Array e 0) = .error .InvalidShape := by
  constructor
  · simp [clientType, h]
  · simp only [Reference.layoutOf]
    cases Reference.layoutOf e with
    | error err => cases err; rfl
    | ok l => rfl

/-- Witness for the amended C27 at an array of 0 `vec3`. -/
theorem C27_Array_count_zero_accepted_witness :
    clientType .rowsAndCols (.Vector .float32 3) = some vec3 ∧
      clientType .rowsAndCols (.Array (.Vector .float32 3) 0) = some (Array vec3 0) :=
  ⟨rfl, (C27_Array_count_zero_accepted .rowsAndCols (.Vector .float32 3) vec3 rfl).1⟩

/-- C28: `bvec2`, `bvec3`, `bvec4` have alignments 2, 16, 16 and sizes 2, 3, 4, where
the Vector Rule gives bool vectors alignments 8, 16, 16 and sizes 8, 12, 16, those of
`ivec2`, `ivec3`, `ivec4`. -/
theorem C28_bvec_typedefs :
    (bvec2.alignof = 2 ∧ bvec2.sizeof = 2) ∧
    (bvec3.alignof = 16 ∧ bvec3.sizeof = 3) ∧
    (bvec4.alignof = 16 ∧ bvec4.sizeof = 4) ∧
    (ivec2.alignof = 8 ∧ ivec2.sizeof = 8) ∧
    (ivec3.alignof = 16 ∧ ivec3.sizeof = 12) ∧
    (ivec4.alignof = 16 ∧ ivec4.sizeof = 16) ∧
    Reference.vectorRule .bool32 2 = .ok ⟨8, 8⟩ ∧
    Reference.vectorRule .bool32 3 = .ok ⟨16, 12⟩ ∧
    Reference.vectorRule .bool32 4 = .ok ⟨16, 16⟩ :=
  ⟨⟨rfl, rfl⟩, ⟨rfl, rfl⟩, ⟨rfl, rfl⟩, ⟨rfl, rfl⟩, ⟨rfl, rfl⟩, ⟨rfl, rfl⟩, rfl, rfl, rfl⟩

/-! ## The first member, the scalar specialisations, and the hint once more -/

/-- C29: in a struct derived from `UBOStruct<>` whose first field is itself derived from
`UBOStruct<>`, or is an `Array` of such structs, the first field is at byte 16, not 0:
the fields `TestStruct3 a; TestStruct3 b; float c;` lie at 16, 32, 48 and the fields
`Array<TestStruct, 2> a; float32_t b;` at 16, 48.  A first field that does not begin with
the struct's own empty base is at byte 0. -/
theorem C29_first_member_with_same_base :
    UBOStruct.memberOffsets vec4 [TestStruct3, TestStruct3, GLfloat] = [16, 32, 48] ∧
    UBOStruct.memberOffsets vec4 [Array TestStruct 2, float32_t] = [16, 48] ∧
    memberOffsets [TestStruct3, TestStruct3, GLfloat] = [0, 16, 32] ∧
    (∀ (T f : CppType) (fs : List CppType), TypeName.UBOStruct T.name ∉ f.emptyBases →
      (UBOStruct.memberOffsets T (f :: fs)).head? = some 0) := by
  refine ⟨rfl, rfl, rfl, ?_⟩
  intro T f fs h
  have h0 : firstMemberOffset (.UBOStruct T.name) (f :: fs) = 0 := by
    simp only [firstMemberOffset, h, if_false]
  have hr : roundUpToMultiple 0 f.alignof = 0 := by
    unfold roundUpToMultiple
    rcases Nat.eq_zero_or_pos f.alignof with hz | hp
    · rw [hz]
    · have : (0 + f.alignof - 1) / f.alignof = 0 := Nat.div_eq_of_lt (by omega)
      rw [this, Nat.zero_mul]
  simp only [UBOStruct.memberOffsets, h0, placeFields, List.head?_cons, hr]

/-- C31: for each of the five scalar typedefs the `ArrayAlignment` specialisation gives
array alignment 16 and an element slot of 16 bytes, which is what the one parametric
rule gives for that scalar: `max 16 (alignof element)` and the element size rounded up
to it, computed on the typedef or by the reference Array Rule on the primitive; the
element slot has the size, the alignment and the kind the primary template would give
it, and differs from that only in its name. -/
theorem C31_scalar_specialisations (p : Reference.PrimitiveType) :
    (ArrayAlignment.AlignmentValue (scalarTypedef p) = 16 ∧
      (ArrayAlignment.ArrayAlignedType (scalarTypedef p)).alignof = 16 ∧
      (ArrayAlignment.ArrayAlignedType (scalarTypedef p)).sizeof = 16) ∧
    (max 16 (scalarTypedef p).alignof = 16 ∧
      roundUpToMultiple (scalarTypedef p).sizeof (max 16 (scalarTypedef p).alignof) = 16) ∧
    (Reference.collectionAlign ⟨p.alignment, p.size⟩ = 16 ∧
      Reference.elementStride ⟨p.alignment, p.size⟩ = 16) ∧
    ((ArrayAlignment.ArrayAlignedType (scalarTypedef p)).sizeof =
        (ArrayAlignedStruct (scalarTypedef p)
          (max vec4.alignof (scalarTypedef p).alignof)).sizeof ∧
      (ArrayAlignment.ArrayAlignedType (scalarTypedef p)).alignof =
        (ArrayAlignedStruct (scalarTypedef p)
          (max vec4.alignof (scalarTypedef p).alignof)).alignof ∧
      (ArrayAlignment.ArrayAlignedType (scalarTypedef p)).id =
        (ArrayAlignedStruct (scalarTypedef p)
          (max vec4.alignof (scalarTypedef p).alignof)).id ∧
      (ArrayAlignment.ArrayAlignedType (scalarTypedef p)).templateAlignof =
        (ArrayAlignedStruct (scalarTypedef p)
          (max vec4.alignof (scalarTypedef p).alignof)).templateAlignof ∧
      (ArrayAlignment.ArrayAlignedType (scalarTypedef p)).emptyBases =
        (ArrayAlignedStruct (scalarTypedef p)
          (max vec4.alignof (scalarTypedef p).alignof)).emptyBases) := by
  cases p <;> exact ⟨⟨rfl, rfl, rfl⟩, ⟨rfl, rfl⟩, ⟨rfl, rfl⟩, ⟨rfl, rfl, rfl, rfl, rfl⟩⟩

end std140
